import Mathlib

/-!
Verification of the mgijax/rollupload genotype-annotation rollup system.

This file gives a shallow embedding, in Lean 4, of the algorithmic core of the
repository: the batch cursor over target keys (`_getNextMarkerBatch` /
`_getNextAlleleBatch`), the causal-resolution rule cascade over the temp tables
(`_keepNaturallySimpleGenotypes`, `_buildScratchPad`, the strip steps,
`_handleMultipleMarkers`, `_handleMutationInvolves`, `_handleTransgenes`,
`_handleDockingSites`, `_handleOtherSingles`, `_removeNullsAndGtRosa`), the
provenance-property injection (`_getEvidenceProperties`), the finalize-once
builder objects (`Marker` / `Allele`), and the mismatch aggregation of the
verification script (`rollup_check.py`).  SQL relations are embedded as lists
of rows; SQL `select distinct ... from A, B, ... where P` becomes nested
`flatMap` / `filterMap` followed by `dedup`; Python dictionaries keyed by
integers become association lists; raised exceptions become `Except.error`.
Theorems about these definitions settle the specification claims.
-/

namespace Rollupload

/-! ### Module constants (rollupmarkerlib.py / rollupallelelib.py globals) -/

/-- `MAX_ANNOTATIONS = 5000`: maximum number of annotations to cache per batch. -/
def MAX_ANNOTATIONS : Nat := 5000

/-- `NO_PHENOTYPIC_ANALYSIS = 293594`: term key excluded from rollup. -/
def NO_PHENOTYPIC_ANALYSIS : Nat := 293594

/-- `GT_ROSA = 37270`: marker key for the Gt(ROSA)26Sor docking-site marker. -/
def GT_ROSA : Nat := 37270

/-- `HPRT = 9936`: marker key for the Hprt marker. -/
def HPRT : Nat := 9936

/-- `COL1A1 = 1092`: marker key for the Col1a1 marker. -/
def COL1A1 : Nat := 1092

/-- `DOCKING_SITES = [GT_ROSA, HPRT, COL1A1]`. -/
def DOCKING_SITES : List Nat := [GT_ROSA, HPRT, COL1A1]

/-! ### Batch cursor (`_getNextMarkerBatch` / `_getNextAlleleBatch`)

The Python function walks the ascending-sorted key list `MARKER_KEYS`,
accumulating `ANNOTATION_COUNTS` until the cumulative total would reach
`MAX_ANNOTATIONS`.  The `while` loop is embedded as `batchLoop`, structurally
recursive on `maxIndex - endIndex`. -/

/-- Embedding of the `while (total < MAX_ANNOTATIONS) and (endIndex < maxIndex)`
loop of `_getNextMarkerBatch`: it tries the next index, adds its count to the
running total, and only advances `endIndex` when the new total is still below
the cap.  Returns the final `endIndex`.  The loop advances `endIndex` by one
per iteration and stops at `maxIndex`, so the caller passes
`maxIndex - endIndex` as `fuel`, which cannot run out before the loop guard
`endIndex < maxIndex` fails. -/
def batchLoop (counts : Nat → Nat) (keys : List Nat) (maxIndex : Nat) :
    Nat → Nat → Nat → Nat
  | 0, endIndex, _ => endIndex
  | fuel + 1, endIndex, total =>
    if total < MAX_ANNOTATIONS ∧ endIndex < maxIndex then
      let total2 := total + counts (keys.getD (endIndex + 1) 0)
      if total2 < MAX_ANNOTATIONS then
        batchLoop counts keys maxIndex fuel (endIndex + 1) total2
      else endIndex
    else endIndex

/-- The start index of the next batch: `0` when `LAST_MARKER_KEY_INDEX` is
`None`, else one past it. -/
def batchStartIndex (lastIndex : Option Nat) : Nat :=
  match lastIndex with
  | none => 0
  | some i => i + 1

/-- Embedding of `_getNextMarkerBatch` (textually identical in
`rollupallelelib._getNextAlleleBatch`).  State is made explicit: `lastIndex`
models `LAST_MARKER_KEY_INDEX`, `counts` models the `ANNOTATION_COUNTS`
dictionary, `keys` models the sorted `MARKER_KEYS` list.  Returns the
`(startKey, endKey)` pair (or `none` for the `(None, None)` case) together
with the updated `lastIndex`. -/
def getNextMarkerBatch (counts : Nat → Nat) (keys : List Nat)
    (lastIndex : Option Nat) : Option (Nat × Nat) × Option Nat :=
  let maxIndex : Int := (keys.length : Int) - 1
  let startIndex : Nat := batchStartIndex lastIndex
  if (startIndex : Int) > maxIndex then (none, lastIndex)
  else
    let total := counts (keys.getD startIndex 0)
    let endIndex :=
      batchLoop counts keys (keys.length - 1) (keys.length - 1 - startIndex)
        startIndex total
    (some (keys.getD startIndex 0, keys.getD endIndex 0), some endIndex)

/-- Sum of the precomputed annotation counts over the inclusive index range
`[a, b]` of the sorted key list. -/
def rangeSum (counts : Nat → Nat) (keys : List Nat) (a b : Nat) : Nat :=
  ((List.range (b + 1 - a)).map (fun j => counts (keys.getD (a + j) 0))).sum

theorem rangeSum_self (counts : Nat → Nat) (keys : List Nat) (a : Nat) :
    rangeSum counts keys a a = counts (keys.getD a 0) := by
  have : a + 1 - a = 1 := by omega
  simp [rangeSum, this, List.range_succ]

theorem rangeSum_succ (counts : Nat → Nat) (keys : List Nat) (a b : Nat)
    (hab : a ≤ b + 1) :
    rangeSum counts keys a (b + 1) =
      rangeSum counts keys a b + counts (keys.getD (b + 1) 0) := by
  have h1 : b + 1 + 1 - a = (b + 1 - a) + 1 := by omega
  have h2 : a + (b + 1 - a) = b + 1 := by omega
  simp only [rangeSum, h1, List.range_succ, List.map_append, List.sum_append,
    List.map_cons, List.map_nil, List.sum_cons, List.sum_nil, h2]
  omega

theorem batchLoop_of_ge (counts : Nat → Nat) (keys : List Nat)
    (maxIndex fuel endIndex total : Nat) (h : MAX_ANNOTATIONS ≤ total) :
    batchLoop counts keys maxIndex fuel endIndex total = endIndex := by
  cases fuel with
  | zero => rfl
  | succ n =>
    rw [batchLoop]
    have : ¬ (total < MAX_ANNOTATIONS ∧ endIndex < maxIndex) := by omega
    rw [if_neg this]

/-- Loop invariant for `batchLoop`: starting from an `endIndex` whose running
`total` is the sum over `[start, endIndex]`, the loop returns an index `e`
within bounds whose batch sum is below the cap (unless the batch is the single
key at `start`), and which is maximal: the batch could not absorb the next key
without reaching the cap. -/
theorem batchLoop_spec (counts : Nat → Nat) (keys : List Nat)
    (maxIndex start : Nat) :
    ∀ fuel endIndex total, maxIndex - endIndex ≤ fuel →
    start ≤ endIndex → endIndex ≤ maxIndex →
    total = rangeSum counts keys start endIndex →
    (endIndex = start ∨ total < MAX_ANNOTATIONS) →
    start ≤ batchLoop counts keys maxIndex fuel endIndex total ∧
    batchLoop counts keys maxIndex fuel endIndex total ≤ maxIndex ∧
    (batchLoop counts keys maxIndex fuel endIndex total = start ∨
      rangeSum counts keys start
        (batchLoop counts keys maxIndex fuel endIndex total)
        < MAX_ANNOTATIONS) ∧
    (batchLoop counts keys maxIndex fuel endIndex total < maxIndex →
      MAX_ANNOTATIONS ≤
        rangeSum counts keys start
          (batchLoop counts keys maxIndex fuel endIndex total + 1)) := by
  intro fuel
  induction fuel with
  | zero =>
    intro endIndex total hfuel hse hem htot hdisj
    have hEq : endIndex = maxIndex := by omega
    refine ⟨hse, hem, ?_, by simp only [batchLoop]; omega⟩
    rcases hdisj with h | h
    · exact Or.inl h
    · exact Or.inr (htot ▸ h)
  | succ n ih =>
    intro endIndex total hfuel hse hem htot hdisj
    rw [batchLoop]
    by_cases hguard : total < MAX_ANNOTATIONS ∧ endIndex < maxIndex
    · rw [if_pos hguard]
      set total2 := total + counts (keys.getD (endIndex + 1) 0) with htotal2
      by_cases h2 : total2 < MAX_ANNOTATIONS
      · rw [if_pos h2]
        have hsum : total2 = rangeSum counts keys start (endIndex + 1) := by
          rw [rangeSum_succ counts keys start endIndex (by omega), ← htot]
        exact ih (endIndex + 1) total2 (by omega) (by omega) (by omega)
          hsum (Or.inr h2)
      · rw [if_neg h2]
        refine ⟨hse, hem, Or.inr (htot ▸ hguard.1), fun _ => ?_⟩
        rw [rangeSum_succ counts keys start endIndex (by omega), ← htot]
        omega
    · rw [if_neg hguard]
      refine ⟨hse, hem, ?_, fun hlt => ?_⟩
      · rcases hdisj with h | h
        · exact Or.inl h
        · exact Or.inr (htot ▸ h)
      · have hge : MAX_ANNOTATIONS ≤ total := by omega
        rw [rangeSum_succ counts keys start endIndex (by omega), ← htot]
        omega

/-- Claim C5: every batch `(startKey, endKey)` returned by the batch cursor
covers the index range `[s, e]` of the ascending-sorted key list with
`s = batchStartIndex lastIndex`; either the batch is a single key or its
annotation-count sum stays under `MAX_ANNOTATIONS`; a single key whose own
count reaches the ceiling is returned solo; and the batch is maximal: when it
stops before the last key, absorbing the next key would reach the ceiling.
The updated cursor state is `some e`, so consecutive batches are contiguous. -/
theorem getNextMarkerBatch_batchBound (counts : Nat → Nat) (keys : List Nat)
    (lastIndex : Option Nat) (a b : Nat)
    (h : (getNextMarkerBatch counts keys lastIndex).1 = some (a, b)) :
    ∃ e : Nat,
      batchStartIndex lastIndex ≤ e ∧ e < keys.length ∧
      a = keys.getD (batchStartIndex lastIndex) 0 ∧ b = keys.getD e 0 ∧
      (e = batchStartIndex lastIndex ∨
        rangeSum counts keys (batchStartIndex lastIndex) e < MAX_ANNOTATIONS) ∧
      (MAX_ANNOTATIONS ≤ counts (keys.getD (batchStartIndex lastIndex) 0) →
        e = batchStartIndex lastIndex) ∧
      (e < keys.length - 1 →
        MAX_ANNOTATIONS ≤
          rangeSum counts keys (batchStartIndex lastIndex) (e + 1)) ∧
      (getNextMarkerBatch counts keys lastIndex).2 = some e := by
  set s := batchStartIndex lastIndex with hs
  by_cases hcond : ((s : Int) > (keys.length : Int) - 1)
  · exfalso
    have : (getNextMarkerBatch counts keys lastIndex).1 = none := by
      unfold getNextMarkerBatch
      rw [← hs, if_pos hcond]
    rw [this] at h
    exact Option.noConfusion h
  · have hslen : s < keys.length := by
      push_cast at hcond
      omega
    have hkey : getNextMarkerBatch counts keys lastIndex =
        (some (keys.getD s 0,
          keys.getD (batchLoop counts keys (keys.length - 1)
            (keys.length - 1 - s) s (counts (keys.getD s 0))) 0),
         some (batchLoop counts keys (keys.length - 1)
            (keys.length - 1 - s) s (counts (keys.getD s 0)))) := by
      unfold getNextMarkerBatch
      rw [← hs, if_neg hcond]
    set e := batchLoop counts keys (keys.length - 1)
      (keys.length - 1 - s) s (counts (keys.getD s 0)) with he
    have hspec := batchLoop_spec counts keys (keys.length - 1) s
      (keys.length - 1 - s) s (counts (keys.getD s 0)) (by omega) le_rfl
      (by omega) (by rw [rangeSum_self]) (Or.inl rfl)
    obtain ⟨h1, h2, h3, h4⟩ := hspec
    rw [hkey] at h
    simp only [Option.some.injEq, Prod.mk.injEq] at h
    refine ⟨e, h1, by omega, h.1.symm, h.2.symm, h3, fun hbig => ?_, h4, ?_⟩
    · rw [he, batchLoop_of_ge counts keys _ _ _ _ hbig]
    · rw [hkey]

/-- Witness for claim C5 at a concrete input: a three-key list whose first
key alone reaches the ceiling, so the first batch is that key solo. -/
theorem getNextMarkerBatch_batchBound_witness :
    (getNextMarkerBatch (fun k => if k = 1 then 6000 else 100) [1, 2, 3]
      none).1 = some (1, 1) ∧
    ∃ e : Nat,
      batchStartIndex none ≤ e ∧ e < [1, 2, 3].length ∧
      1 = [1, 2, 3].getD (batchStartIndex none) 0 ∧ 1 = [1, 2, 3].getD e 0 ∧
      (e = batchStartIndex none ∨
        rangeSum (fun k => if k = 1 then 6000 else 100) [1, 2, 3]
          (batchStartIndex none) e < MAX_ANNOTATIONS) ∧
      (MAX_ANNOTATIONS ≤ (fun k => if k = 1 then 6000 else 100)
          ([1, 2, 3].getD (batchStartIndex none) 0) →
        e = batchStartIndex none) ∧
      (e < [1, 2, 3].length - 1 →
        MAX_ANNOTATIONS ≤
          rangeSum (fun k => if k = 1 then 6000 else 100) [1, 2, 3]
            (batchStartIndex none) (e + 1)) ∧
      (getNextMarkerBatch (fun k => if k = 1 then 6000 else 100) [1, 2, 3]
        none).2 = some e := by
  have h : (getNextMarkerBatch (fun k => if k = 1 then 6000 else 100)
      [1, 2, 3] none).1 = some (1, 1) := by decide
  exact ⟨h, getNextMarkerBatch_batchBound _ _ _ _ _ h⟩

/-! ### Fact snapshot (the relational tables read by the rule cascade)

Each relation of the external store is embedded as a list of typed rows,
carrying exactly the columns the rollup queries read. -/

/-- Row of `GXD_AlleleGenotype`: one (genotype, allele, marker) link. -/
structure GagRow where
  genotypeKey : Nat
  alleleKey : Nat
  markerKey : Nat
  deriving DecidableEq, Repr

/-- Row of `GXD_Genotype` (columns used: key and `isConditional`). -/
structure GenoRow where
  genotypeKey : Nat
  isConditional : Nat
  deriving DecidableEq, Repr

/-- Row of `ALL_Allele` (columns used by the cascade). -/
structure AlleleRow where
  alleleKey : Nat
  markerKey : Nat
  alleleTypeKey : Nat
  isWildType : Nat
  symbol : String
  deriving DecidableEq, Repr

/-- Row of `MRK_Marker` (columns used by the cascade). -/
structure MarkerRow where
  markerKey : Nat
  markerTypeKey : Nat
  organismKey : Nat
  symbol : String
  deriving DecidableEq, Repr

/-- Row of `MGI_Relationship`: an (allele, marker) edge with a category
(1003 = MutationInvolves, 1004 = ExpressesComponent) and relationship term. -/
structure RelRow where
  categoryKey : Nat
  objectKey1 : Nat
  objectKey2 : Nat
  relTermKey : Nat
  deriving DecidableEq, Repr

/-- Row of `VOC_Annot` (columns used by the cascade: annotation type, the
annotated object, and the term). -/
structure VannotRow where
  annotTypeKey : Nat
  objectKey : Nat
  termKey : Nat
  deriving DecidableEq, Repr

/-- Row of `ACC_Accession` (columns used by the cascade). -/
structure AccRow where
  objectKey : Nat
  mgiTypeKey : Nat
  logicalDbKey : Nat
  prefixPart : String
  preferred : Nat
  accid : String
  deriving DecidableEq, Repr

/-- A snapshot of the fact relations read by the resolution engine. -/
structure FactDB where
  gag : List GagRow
  genotypes : List GenoRow
  alleles : List AlleleRow
  markers : List MarkerRow
  rels : List RelRow
  vannots : List VannotRow
  accs : List AccRow
  deriving Repr

/-- Row of the `genotype_keepers` temp table: genotype, claiming-rule tag,
kept marker (nullable column), marker symbol, and the two accession ids. -/
structure KeeperRow where
  genotypeKey : Nat
  genotypeType : String
  markerKey : Option Nat
  symbol : String
  gaccid : String
  maccid : String
  deriving DecidableEq, Repr

/-- Row of the `scratchpad` temp table. -/
structure SpRow where
  genotypeKey : Nat
  markerKey : Nat
  alleleKey : Nat
  isConditional : Nat
  symbol : String
  gaccid : String
  maccid : String
  deriving DecidableEq, Repr

/-- Does the genotype carry a qualifying annotation (the `exists (select 1
from VOC_Annot v where v._AnnotType_key in (A) and v._Term_key != NPA and
v._Object_key = g)` subquery)? -/
def hasQualifyingAnnot (A : Nat) (db : FactDB) (g : Nat) : Bool :=
  db.vannots.any fun v =>
    v.annotTypeKey == A && v.termKey != NO_PHENOTYPIC_ANALYSIS &&
      v.objectKey == g

/-- Does the allele carry the allele-subtype annotation (annotation type 1014)
for the given term key? -/
def hasSubtype (db : FactDB) (alleleKey term : Nat) : Bool :=
  db.vannots.any fun v =>
    alleleKey == v.objectKey && v.annotTypeKey == 1014 && v.termKey == term

/-- SQL `group by k` with `count(1)`: one `(key, row count)` pair per distinct
key of `l` under the projection `key`. -/
def sqlGroupCount {α : Type} (l : List α) (key : α → Nat) :
    List (Nat × Nat) :=
  ((l.map key).dedup).map fun g => (g, (l.filter fun x => key x == g).length)

/-- `_countAllelePairsPerGenotype('GXD_AllelePair')` (rollupmarkerlib): count
of `GXD_AlleleGenotype` rows per genotype, restricted to genotypes carrying a
qualifying annotation (`testSQL` is the empty string in rollupmarkerlib). -/
def pairCountsFromGag (A : Nat) (db : FactDB) : List (Nat × Nat) :=
  sqlGroupCount
    (db.gag.filter fun g => hasQualifyingAnnot A db g.genotypeKey)
    (fun g => g.genotypeKey)

/-- `_countAllelePairsPerGenotype('scratchpad')`: count of scratchpad rows per
genotype (re-created by `_deleteScratchpad` after each delete). -/
def pairCountsFromScratch (sp : List SpRow) : List (Nat × Nat) :=
  sqlGroupCount sp (fun s => s.genotypeKey)

/-- Row of the `has_expresses_component` temp table. -/
structure HecRow where
  accid : String
  genotypeKey : Nat
  alleleKey : Nat
  deriving DecidableEq, Repr

/-- `_identifyExpressesComponent`: (genotype, allele) pairs with an
ExpressesComponent relationship (category 1004), for annotated genotypes. -/
def hasExpressesComponent (A : Nat) (db : FactDB) : List HecRow :=
  (db.vannots.flatMap fun a =>
    db.gag.flatMap fun gag =>
      db.rels.flatMap fun mr =>
        db.accs.filterMap fun aa =>
          if a.annotTypeKey == A && a.termKey != NO_PHENOTYPIC_ANALYSIS &&
              a.objectKey == gag.genotypeKey &&
              gag.alleleKey == mr.objectKey1 && mr.categoryKey == 1004 &&
              gag.genotypeKey == aa.objectKey && aa.mgiTypeKey == 12 &&
              aa.logicalDbKey == 1 && aa.prefixPart == "MGI:"
          then some ⟨aa.accid, gag.genotypeKey, gag.alleleKey⟩
          else none).dedup

/-- Row of the `has_mutation_involves` temp table. -/
structure HmiRow where
  accid : String
  genotypeKey : Nat
  alleleKey : Nat
  markerKey : Nat
  symbol : String
  deriving DecidableEq, Repr

/-- `_identifyMutationInvolves`: (genotype, allele, involved marker) triples
with a MutationInvolves relationship (category 1003), for annotated
genotypes. -/
def hasMutationInvolves (A : Nat) (db : FactDB) : List HmiRow :=
  (db.vannots.flatMap fun a =>
    db.gag.flatMap fun gag =>
      db.rels.flatMap fun mr =>
        db.accs.flatMap fun aa =>
          db.markers.filterMap fun m =>
            if a.annotTypeKey == A && a.termKey != NO_PHENOTYPIC_ANALYSIS &&
                a.objectKey == gag.genotypeKey &&
                gag.alleleKey == mr.objectKey1 && mr.categoryKey == 1003 &&
                gag.genotypeKey == aa.objectKey && aa.mgiTypeKey == 12 &&
                aa.logicalDbKey == 1 && aa.prefixPart == "MGI:" &&
                mr.objectKey2 == m.markerKey
            then some ⟨aa.accid, gag.genotypeKey, gag.alleleKey,
              mr.objectKey2, m.symbol⟩
            else none).dedup

/-- `_keepNaturallySimpleGenotypes` (rollupmarkerlib): rule #1, one marker
genotype.  Inserts into `genotype_keepers` the genotypes with a single allele
pair, not conditional, with no MutationInvolves rows, whose allele lacks the
"inserted expressed sequence" subtype (term 11025597), and which have at least
one non-wild-type allele. -/
def keepNaturallySimple (A : Nat) (db : FactDB) (pc : List (Nat × Nat)) :
    List KeeperRow :=
  (pc.flatMap fun c =>
    db.gag.flatMap fun p =>
      db.genotypes.flatMap fun gg =>
        db.markers.flatMap fun m =>
          db.accs.flatMap fun a1 =>
            db.accs.filterMap fun a2 =>
              if c.2 == 1 && c.1 == p.genotypeKey &&
                  p.genotypeKey == gg.genotypeKey && gg.isConditional == 0 &&
                  p.markerKey == m.markerKey &&
                  c.1 == a1.objectKey && a1.mgiTypeKey == 12 &&
                  a1.logicalDbKey == 1 && a1.prefixPart == "MGI:" &&
                  p.markerKey == a2.objectKey && a2.mgiTypeKey == 2 &&
                  a2.logicalDbKey == 1 && a2.prefixPart == "MGI:" &&
                  a2.preferred == 1 &&
                  !((hasMutationInvolves A db).any fun mi =>
                      c.1 == mi.genotypeKey) &&
                  !(hasSubtype db p.alleleKey 11025597) &&
                  (db.gag.any fun gag =>
                    db.alleles.any fun al =>
                      c.1 == gag.genotypeKey &&
                        gag.alleleKey == al.alleleKey && al.isWildType == 0)
              then some ⟨c.1, "rule #1 : one marker genotype",
                some p.markerKey, m.symbol, a1.accid, a2.accid⟩
              else none).dedup

/-- `_buildScratchPad`: the working set of (genotype, marker, allele) links
for genotypes with annotations that were not already claimed as keepers. -/
def buildScratchPad (db : FactDB) (keepers : List KeeperRow)
    (pc : List (Nat × Nat)) : List SpRow :=
  (pc.flatMap fun c =>
    db.gag.flatMap fun gag =>
      db.genotypes.flatMap fun g =>
        db.markers.flatMap fun m =>
          db.accs.flatMap fun a1 =>
            db.accs.filterMap fun a2 =>
              if !(keepers.any fun k => c.1 == k.genotypeKey) &&
                  c.1 == gag.genotypeKey && c.1 == g.genotypeKey &&
                  gag.markerKey == m.markerKey &&
                  gag.genotypeKey == a1.objectKey && a1.mgiTypeKey == 12 &&
                  a1.logicalDbKey == 1 && a1.prefixPart == "MGI:" &&
                  gag.markerKey == a2.objectKey && a2.mgiTypeKey == 2 &&
                  a2.logicalDbKey == 1 && a2.prefixPart == "MGI:" &&
                  a2.preferred == 1
              then some ⟨gag.genotypeKey, gag.markerKey, gag.alleleKey,
                g.isConditional, m.symbol, a1.accid, a2.accid⟩
              else none).dedup

/-- `_removeConditionalGenotypes`: for conditional genotypes, delete links
whose allele has the Recombinase subtype (11025588) but not the
"inserted expressed sequence" subtype (11025597). -/
def removeConditionalGenotypes (db : FactDB) (sp : List SpRow) : List SpRow :=
  sp.filter fun p =>
    !(p.isConditional == 1 && hasSubtype db p.alleleKey 11025588 &&
        !(hasSubtype db p.alleleKey 11025597))

/-- `_identifyReporterTransgenes`: transgenic alleles (type 847126) with the
Reporter subtype (11025589) and no other subtype. -/
def reporterTransgenes (db : FactDB) : List Nat :=
  (db.alleles.filterMap fun a =>
    if a.alleleTypeKey == 847126 &&
        (db.vannots.any fun v =>
          a.alleleKey == v.objectKey && v.annotTypeKey == 1014 &&
            v.termKey == 11025589) &&
        !(db.vannots.any fun v =>
          a.alleleKey == v.objectKey && v.annotTypeKey == 1014 &&
            v.termKey != 11025589)
    then some a.alleleKey
    else none).dedup

/-- `_removeReporterTransgenes`: delete scratchpad links whose allele is a
reporter transgene. -/
def removeReporterTransgenes (db : FactDB) (sp : List SpRow) : List SpRow :=
  sp.filter fun p =>
    !((reporterTransgenes db).any fun r => p.alleleKey == r)

/-- `_identifyTransactivators`: transgenic alleles with the Transactivator
subtype (13289567) and no "inserted expressed sequence" subtype.  The SQL
joins `voc_annot t` without using it, so the result is empty whenever
`VOC_Annot` is empty; the embedding keeps that join. -/
def transactivators (db : FactDB) : List Nat :=
  (db.alleles.flatMap fun a =>
    db.vannots.filterMap fun _t =>
      if a.alleleTypeKey == 847126 &&
          (db.vannots.any fun v =>
            a.alleleKey == v.objectKey && v.annotTypeKey == 1014 &&
              v.termKey == 13289567) &&
          !(hasSubtype db a.alleleKey 11025597)
      then some a.alleleKey
      else none).dedup

/-- `_removeTransactivators`. -/
def removeTransactivators (db : FactDB) (sp : List SpRow) : List SpRow :=
  sp.filter fun p =>
    !((transactivators db).any fun t => p.alleleKey == t)

/-- `_identifyWildTypeAlleles`: the wild-type alleles still in scratchpad. -/
def wildtypeAlleles (db : FactDB) (sp : List SpRow) : List Nat :=
  (sp.flatMap fun p =>
    db.alleles.filterMap fun a =>
      if p.alleleKey == a.alleleKey && a.isWildType == 1
      then some p.alleleKey
      else none).dedup

/-- `_removeWildTypeAllelesFromScratchPad`. -/
def removeWildType (db : FactDB) (sp : List SpRow) : List SpRow :=
  sp.filter fun p =>
    !((wildtypeAlleles db sp).any fun w => p.alleleKey == w)

/-- `_collectMarkerSets` table `trad`: distinct (genotype, marker) pairs via
the traditional allele-marker route (joined against `ALL_Allele`). -/
def tradPairs (db : FactDB) (sp : List SpRow) : List (Nat × Nat) :=
  (sp.flatMap fun s =>
    db.alleles.filterMap fun a =>
      if s.alleleKey == a.alleleKey
      then some (s.genotypeKey, s.markerKey)
      else none).dedup

/-- `_collectMarkerSets` table `mi`: distinct (genotype, marker) pairs via
MutationInvolves relationships of scratchpad alleles. -/
def miPairs (db : FactDB) (sp : List SpRow) : List (Nat × Nat) :=
  (sp.flatMap fun s =>
    db.rels.filterMap fun mr =>
      if s.alleleKey == mr.objectKey1 && mr.categoryKey == 1003
      then some (s.genotypeKey, mr.objectKey2)
      else none).dedup

/-- Row of the `ec` temp table: genotype, expressed marker, its organism, and
the relationship term. -/
structure EcRow where
  genotypeKey : Nat
  markerKey : Nat
  organismKey : Nat
  relTermKey : Nat
  deriving DecidableEq, Repr

/-- `_collectMarkerSets` table `ec`. -/
def ecRows (db : FactDB) (sp : List SpRow) : List EcRow :=
  (sp.flatMap fun s =>
    db.rels.flatMap fun mr =>
      db.markers.filterMap fun m =>
        if s.alleleKey == mr.objectKey1 && mr.categoryKey == 1004 &&
            mr.objectKey2 == m.markerKey
        then some ⟨s.genotypeKey, mr.objectKey2, m.organismKey,
          mr.relTermKey⟩
        else none).dedup

/-- `trad_ct`: per-genotype count of `trad` rows. -/
def tradCt (db : FactDB) (sp : List SpRow) : List (Nat × Nat) :=
  sqlGroupCount (tradPairs db sp) Prod.fst

/-- `mi_ct`: per-genotype count of `mi` rows. -/
def miCt (db : FactDB) (sp : List SpRow) : List (Nat × Nat) :=
  sqlGroupCount (miPairs db sp) Prod.fst

/-- `ec_ct`: per-genotype count of `ec` rows. -/
def ecCt (db : FactDB) (sp : List SpRow) : List (Nat × Nat) :=
  sqlGroupCount (ecRows db sp) (fun e => e.genotypeKey)

/-- `_handleMultipleMarkers` insert template (rule #2): genotypes with no
MutationInvolves markers, exactly two traditional markers, one transgene
(`mt`, marker type 12) and one non-transgene (`nt`), where the transgene
expresses exactly the non-transgene (ExpressesComponent, term 12965808,
"expresses mouse gene").  The template is instantiated twice: once selecting
the transgene marker (`pickTransgene = true`, the `transgeneCmd`) and once
selecting the expressed non-transgene marker (`otherCmd`). -/
def rule2Insert (db : FactDB) (sp : List SpRow)
    (tradT tradCtT miCtT : List (Nat × Nat)) (pickTransgene : Bool) :
    List KeeperRow :=
  (sp.flatMap fun s =>
    tradCtT.flatMap fun tc =>
      tradT.flatMap fun tt =>
        db.markers.flatMap fun mt =>
          tradT.flatMap fun tn =>
            db.markers.flatMap fun nt =>
              db.accs.flatMap fun a1 =>
                db.accs.filterMap fun a2 =>
                  if s.genotypeKey == a1.objectKey && a1.mgiTypeKey == 12 &&
                      a1.logicalDbKey == 1 && a1.prefixPart == "MGI:" &&
                      (if pickTransgene then mt.markerKey
                        else nt.markerKey) == a2.objectKey &&
                      a2.mgiTypeKey == 2 && a2.prefixPart == "MGI:" &&
                      a2.logicalDbKey == 1 && a2.preferred == 1 &&
                      !(miCtT.any fun mc => s.genotypeKey == mc.1) &&
                      s.genotypeKey == tc.1 && tc.2 == 2 &&
                      s.genotypeKey == tt.1 && tt.2 == mt.markerKey &&
                      mt.markerTypeKey == 12 &&
                      s.genotypeKey == tn.1 && tn.2 == nt.markerKey &&
                      nt.markerTypeKey != 12 &&
                      (db.rels.any fun r1 =>
                        db.alleles.any fun a =>
                          r1.categoryKey == 1004 &&
                            mt.markerKey == a.markerKey &&
                            a.alleleKey == r1.objectKey1 &&
                            r1.relTermKey == 12965808 &&
                            r1.objectKey2 == nt.markerKey) &&
                      !(db.rels.any fun r2 =>
                        db.alleles.any fun ab =>
                          r2.categoryKey == 1004 &&
                            mt.markerKey == ab.markerKey &&
                            ab.alleleKey == r2.objectKey1 &&
                            r2.objectKey2 != nt.markerKey)
                  then some ⟨s.genotypeKey, "rule #2 : transgene, 1 EC, 0 MI",
                    some (if pickTransgene then mt.markerKey
                      else nt.markerKey),
                    (if pickTransgene then mt.symbol else nt.symbol),
                    a1.accid, a2.accid⟩
                  else none).dedup

/-- `_handleMultipleMarkers` delete: genotypes with more than one traditional
marker are removed from the scratchpad. -/
def rule2Delete (sp : List SpRow) (tradCtT : List (Nat × Nat)) : List SpRow :=
  sp.filter fun p =>
    !(tradCtT.any fun tc => tc.1 == p.genotypeKey && 1 < tc.2)

/-- Row of the `mi1` / `mi2` / `mi3` temp tables of
`_handleMutationInvolves`. -/
structure MiRow where
  gaccid : String
  maccid : String
  genotypeKey : Nat
  markerKey : Nat
  symbol : String
  deriving DecidableEq, Repr

/-- Marker feature-type term keys of the rule #3 non-transgene clause
(heritable phenotypic marker, enhancer, silencer, imprinting control region,
locus control region, promoter). -/
def MI1_FEATURE_TERMS : List Nat :=
  [6238170, 97015607, 97015607, 103059157, 103059158, 103059155, 15406207]

/-- `mi1` (rule #3, non-transgene clause): single-pair genotypes whose
scratchpad allele has a MutationInvolves row and whose traditional marker has
one of the selected feature types (annotation type 1011) or marker type 3 or
10. -/
def mi1Rows (db : FactDB) (pc : List (Nat × Nat)) (sp : List SpRow)
    (hmi : List HmiRow) : List MiRow :=
  (pc.flatMap fun c =>
    sp.flatMap fun s =>
      hmi.filterMap fun mi =>
        if c.2 == 1 && c.1 == s.genotypeKey &&
            s.genotypeKey == mi.genotypeKey && s.alleleKey == mi.alleleKey &&
            ((db.vannots.any fun v =>
                s.markerKey == v.objectKey && v.annotTypeKey == 1011 &&
                  MI1_FEATURE_TERMS.contains v.termKey) ||
              (db.markers.any fun m =>
                s.markerKey == m.markerKey &&
                  (m.markerTypeKey == 3 || m.markerTypeKey == 10)))
        then some ⟨s.gaccid, s.maccid, s.genotypeKey, s.markerKey, s.symbol⟩
        else none).dedup

/-- Shared `where` clause of both halves of the `mi2` union (rule #3,
transgene clause): single-pair genotype, scratchpad allele with a
MutationInvolves row, exactly one MutationInvolves marker, and the
traditional marker of marker type 12 (transgene). -/
def mi2Cond (db : FactDB) (miCtT : List (Nat × Nat)) (c : Nat × Nat)
    (s : SpRow) (mi : HmiRow) : Bool :=
  c.2 == 1 && c.1 == s.genotypeKey && s.genotypeKey == mi.genotypeKey &&
    s.alleleKey == mi.alleleKey &&
    (miCtT.any fun x => s.genotypeKey == x.1 && x.2 == 1) &&
    (db.markers.any fun m =>
      s.markerKey == m.markerKey && m.markerTypeKey == 12)

/-- `mi2` (rule #3, transgene clause): the SQL `union` of two selects over the
same joins — the first keeps the scratchpad (traditional transgene) marker,
the second keeps the MutationInvolves marker, so the table holds BOTH markers
for each matching genotype. -/
def mi2Rows (db : FactDB) (pc : List (Nat × Nat)) (sp : List SpRow)
    (hmi : List HmiRow) (miCtT : List (Nat × Nat)) : List MiRow :=
  (((pc.flatMap fun c =>
    sp.flatMap fun s =>
      hmi.filterMap fun mi =>
        if mi2Cond db miCtT c s mi
        then some ⟨s.gaccid, s.maccid, s.genotypeKey, s.markerKey, s.symbol⟩
        else none) : List MiRow) ++
   ((pc.flatMap fun c =>
    sp.flatMap fun s =>
      hmi.filterMap fun mi =>
        if mi2Cond db miCtT c s mi
        then some ⟨s.gaccid, s.maccid, s.genotypeKey, mi.markerKey,
          mi.symbol⟩
        else none) : List MiRow)).dedup

/-- `mi3` (rule #3, docking-site clause): single-pair genotype with one
MutationInvolves marker whose traditional marker is a docking site; keeps the
MutationInvolves marker.  (The SQL select has no `distinct`.) -/
def mi3Rows (db : FactDB) (pc : List (Nat × Nat)) (sp : List SpRow)
    (hmi : List HmiRow) (miCtT : List (Nat × Nat)) : List MiRow :=
  pc.flatMap fun c =>
    sp.flatMap fun s =>
      hmi.filterMap fun mi =>
        if c.2 == 1 && c.1 == s.genotypeKey &&
            s.genotypeKey == mi.genotypeKey && s.alleleKey == mi.alleleKey &&
            (miCtT.any fun x => s.genotypeKey == x.1 && x.2 == 1) &&
            (db.markers.any fun m =>
              s.markerKey == m.markerKey &&
                DOCKING_SITES.contains m.markerKey)
        then some ⟨s.gaccid, s.maccid, s.genotypeKey, mi.markerKey,
          mi.symbol⟩
        else none

/-- `_handleMutationInvolves` insert from `mi1`: keeps the scratchpad
marker. -/
def rule3InsertMi1 (sp : List SpRow) (mi1 : List MiRow) : List KeeperRow :=
  sp.flatMap fun s =>
    mi1.filterMap fun m1 =>
      if s.genotypeKey == m1.genotypeKey
      then some ⟨s.genotypeKey, "rule #3 : non-transgene clause",
        some s.markerKey, s.symbol, s.gaccid, s.maccid⟩
      else none

/-- `_handleMutationInvolves` insert from `mi2`: keeps the `mi2` marker (the
union holds both the transgene and the MutationInvolves marker). -/
def rule3InsertMi2 (sp : List SpRow) (mi2 : List MiRow) : List KeeperRow :=
  sp.flatMap fun s =>
    mi2.filterMap fun m2 =>
      if s.genotypeKey == m2.genotypeKey
      then some ⟨s.genotypeKey, "rule #3 : transgene clause",
        some m2.markerKey, m2.symbol, s.gaccid, s.maccid⟩
      else none

/-- `_handleMutationInvolves` insert from `mi3`: keeps the `mi3`
(MutationInvolves) marker. -/
def rule3InsertMi3 (sp : List SpRow) (mi3 : List MiRow) : List KeeperRow :=
  sp.flatMap fun s =>
    mi3.filterMap fun m3 =>
      if s.genotypeKey == m3.genotypeKey
      then some ⟨s.genotypeKey, "rule #3 : docking site clause",
        some m3.markerKey, m3.symbol, s.gaccid, s.maccid⟩
      else none

/-- `_handleMutationInvolves` deletes: all genotypes with any MutationInvolves
marker (`mi_ct`) and all genotypes of `mi1`, `mi2`, `mi3` leave the
scratchpad. -/
def rule3Delete (sp : List SpRow) (miCtT : List (Nat × Nat))
    (mi1 mi2 mi3 : List MiRow) : List SpRow :=
  sp.filter fun p =>
    !(miCtT.any fun x => x.1 == p.genotypeKey) &&
    !(mi1.any fun m => m.genotypeKey == p.genotypeKey) &&
    !(mi2.any fun m => m.genotypeKey == p.genotypeKey) &&
    !(mi3.any fun m => m.genotypeKey == p.genotypeKey)

/-- `_handleTransgenes` rule #4: single-marker genotypes whose marker is a
transgene keep that marker. -/
def rule4Insert (db : FactDB) (sp : List SpRow) : List KeeperRow :=
  sp.flatMap fun s =>
    db.markers.filterMap fun m =>
      if s.markerKey == m.markerKey && m.markerTypeKey == 12
      then some ⟨s.genotypeKey, "rule #4 : transgene", some s.markerKey,
        s.symbol, s.gaccid, s.maccid⟩
      else none

/-- `_handleTransgenes` rule #5: a transgene with exactly one
ExpressesComponent row ("expresses mouse gene") also keeps the expressed
marker. -/
def rule5Insert (db : FactDB) (sp : List SpRow) (ecT : List EcRow)
    (ecCtT : List (Nat × Nat)) : List KeeperRow :=
  sp.flatMap fun s =>
    db.markers.flatMap fun m =>
      ecCtT.flatMap fun ct =>
        ecT.filterMap fun e =>
          if s.markerKey == m.markerKey && m.markerTypeKey == 12 &&
              s.genotypeKey == e.genotypeKey && e.relTermKey == 12965808 &&
              s.genotypeKey == ct.1 && ct.2 == 1
          then some ⟨s.genotypeKey, "rule #5 : transgene, 1 EC",
            some e.markerKey, s.symbol, s.gaccid, s.maccid⟩
          else none

/-- `_handleTransgenes` delete: every genotype having a scratchpad row with a
transgene marker leaves the scratchpad. -/
def rule4Delete (db : FactDB) (sp : List SpRow) : List SpRow :=
  sp.filter fun p =>
    !(sp.any fun s =>
      db.markers.any fun m =>
        s.genotypeKey == p.genotypeKey && s.markerKey == m.markerKey &&
          m.markerTypeKey == 12)

/-- `_handleDockingSites` rule #6: docking-site marker with exactly one
ExpressesComponent row ("expresses mouse gene") keeps the expressed marker. -/
def rule6Insert (sp : List SpRow) (ecT : List EcRow)
    (ecCtT : List (Nat × Nat)) : List KeeperRow :=
  sp.flatMap fun s =>
    ecCtT.flatMap fun ct =>
      ecT.filterMap fun e =>
        if DOCKING_SITES.contains s.markerKey && s.genotypeKey == ct.1 &&
            ct.2 == 1 && e.relTermKey == 12965808 &&
            s.genotypeKey == e.genotypeKey
        then some ⟨s.genotypeKey, "rule #6 : docking site, 1 EC",
          some e.markerKey, s.symbol, s.gaccid, s.maccid⟩
        else none

/-- `_handleDockingSites` rule #9: for Hprt and Col1a1 (docking sites with
intrinsic phenotypes), keep the docking-site marker itself when the allele has
no "inserted expressed sequence" subtype. -/
def rule9Insert (db : FactDB) (sp : List SpRow) : List KeeperRow :=
  sp.filterMap fun s =>
    if (s.markerKey == HPRT || s.markerKey == COL1A1) &&
        !(hasSubtype db s.alleleKey 11025597)
    then some ⟨s.genotypeKey, "rule #9 : docking site, 0 EC",
      some s.markerKey, s.symbol, s.gaccid, s.maccid⟩
    else none

/-- `_handleDockingSites` delete: scratchpad rows with a docking-site marker
are removed. -/
def rule6Delete (sp : List SpRow) : List SpRow :=
  sp.filter fun s => !(DOCKING_SITES.contains s.markerKey)

/-- `_handleOtherSingles` rule #7: genotypes with no ExpressesComponent
relationship at all keep their traditional marker. -/
def rule7Insert (A : Nat) (db : FactDB) (sp : List SpRow) : List KeeperRow :=
  sp.filterMap fun s =>
    if !((hasExpressesComponent A db).any fun ct =>
        s.genotypeKey == ct.genotypeKey)
    then some ⟨s.genotypeKey, "rule #7 : singles, no EC", some s.markerKey,
      s.symbol, s.gaccid, s.maccid⟩
    else none

/-- `_handleOtherSingles` rule #8: a single self-expressing marker (its sole
ExpressesComponent row targets the marker itself) is kept. -/
def rule8Insert (sp : List SpRow) (ecT : List EcRow)
    (ecCtT : List (Nat × Nat)) : List KeeperRow :=
  sp.flatMap fun s =>
    ecCtT.flatMap fun ct =>
      ecT.filterMap fun e =>
        if s.genotypeKey == ct.1 && ct.2 == 1 &&
            e.relTermKey == 12965808 && s.genotypeKey == e.genotypeKey &&
            s.markerKey == e.markerKey
        then some ⟨s.genotypeKey, "rule #8 : self-expressing single",
          some s.markerKey, s.symbol, s.gaccid, s.maccid⟩
        else none

/-- `_removeNullsAndGtRosa`: the final cleanup deletes keeper rows whose
marker is Gt(ROSA)26Sor and keeper rows whose marker is null. -/
def removeNullsAndGtRosa (keepers : List KeeperRow) : List KeeperRow :=
  (keepers.filter fun k => k.markerKey != some GT_ROSA).filter
    fun k => k.markerKey != none

/-! ### The cascade pipeline (`rollupmarkerlib._initialize` order)

Each `mk*` definition names one intermediate state of the run: `mkSp0` is the
freshly built scratchpad, `mkSp1`–`mkSp4` the states after the four strip
steps, `mkSp5`–`mkSp8` the states after the deletes of rules #2, #3, #4/#5 and
#6/#9. -/

/-- Initial `genotype_pair_counts`. -/
def mkPc0 (A : Nat) (db : FactDB) : List (Nat × Nat) :=
  pairCountsFromGag A db

/-- Keepers after rule #1 (`_keepNaturallySimpleGenotypes`). -/
def mkKeepers1 (A : Nat) (db : FactDB) : List KeeperRow :=
  keepNaturallySimple A db (mkPc0 A db)

/-- Scratchpad as built (`_buildScratchPad`). -/
def mkSp0 (A : Nat) (db : FactDB) : List SpRow :=
  buildScratchPad db (mkKeepers1 A db) (mkPc0 A db)

/-- Scratchpad after `_removeConditionalGenotypes`. -/
def mkSp1 (A : Nat) (db : FactDB) : List SpRow :=
  removeConditionalGenotypes db (mkSp0 A db)

/-- Scratchpad after `_removeReporterTransgenes`. -/
def mkSp2 (A : Nat) (db : FactDB) : List SpRow :=
  removeReporterTransgenes db (mkSp1 A db)

/-- Scratchpad after `_removeTransactivators`. -/
def mkSp3 (A : Nat) (db : FactDB) : List SpRow :=
  removeTransactivators db (mkSp2 A db)

/-- Scratchpad after `_removeWildTypeAllelesFromScratchPad`; this is the state
over which `_collectMarkerSets` builds `trad`, `mi`, `ec` and their counts,
and the state rule #2 reads. -/
def mkSp4 (A : Nat) (db : FactDB) : List SpRow :=
  removeWildType db (mkSp3 A db)

/-- The `trad` table of `_collectMarkerSets`. -/
def mkTrad (A : Nat) (db : FactDB) : List (Nat × Nat) :=
  tradPairs db (mkSp4 A db)

/-- The `trad_ct` table. -/
def mkTradCt (A : Nat) (db : FactDB) : List (Nat × Nat) :=
  tradCt db (mkSp4 A db)

/-- The `mi_ct` table. -/
def mkMiCt (A : Nat) (db : FactDB) : List (Nat × Nat) :=
  miCt db (mkSp4 A db)

/-- The `ec` table. -/
def mkEc (A : Nat) (db : FactDB) : List EcRow :=
  ecRows db (mkSp4 A db)

/-- The `ec_ct` table. -/
def mkEcCt (A : Nat) (db : FactDB) : List (Nat × Nat) :=
  ecCt db (mkSp4 A db)

/-- Rows inserted by rule #2 (both instantiations of the template). -/
def mkRule2Rows (A : Nat) (db : FactDB) : List KeeperRow :=
  rule2Insert db (mkSp4 A db) (mkTrad A db) (mkTradCt A db) (mkMiCt A db)
      true ++
    rule2Insert db (mkSp4 A db) (mkTrad A db) (mkTradCt A db) (mkMiCt A db)
      false

/-- Scratchpad after the rule #2 delete. -/
def mkSp5 (A : Nat) (db : FactDB) : List SpRow :=
  rule2Delete (mkSp4 A db) (mkTradCt A db)

/-- `genotype_pair_counts` as read by rule #3: last re-created by
`_deleteScratchpad` at the end of the wild-type strip (rule #2 does not
re-create it), hence counted over `mkSp4`. -/
def mkPc3 (A : Nat) (db : FactDB) : List (Nat × Nat) :=
  pairCountsFromScratch (mkSp4 A db)

/-- The `mi1` table of rule #3. -/
def mkMi1 (A : Nat) (db : FactDB) : List MiRow :=
  mi1Rows db (mkPc3 A db) (mkSp5 A db) (hasMutationInvolves A db)

/-- The `mi2` table of rule #3. -/
def mkMi2 (A : Nat) (db : FactDB) : List MiRow :=
  mi2Rows db (mkPc3 A db) (mkSp5 A db) (hasMutationInvolves A db)
    (mkMiCt A db)

/-- The `mi3` table of rule #3. -/
def mkMi3 (A : Nat) (db : FactDB) : List MiRow :=
  mi3Rows db (mkPc3 A db) (mkSp5 A db) (hasMutationInvolves A db)
    (mkMiCt A db)

/-- Rows inserted by rule #3 (all three clauses). -/
def mkRule3Rows (A : Nat) (db : FactDB) : List KeeperRow :=
  rule3InsertMi1 (mkSp5 A db) (mkMi1 A db) ++
    rule3InsertMi2 (mkSp5 A db) (mkMi2 A db) ++
    rule3InsertMi3 (mkSp5 A db) (mkMi3 A db)

/-- Scratchpad after the rule #3 deletes. -/
def mkSp6 (A : Nat) (db : FactDB) : List SpRow :=
  rule3Delete (mkSp5 A db) (mkMiCt A db) (mkMi1 A db) (mkMi2 A db)
    (mkMi3 A db)

/-- Rows inserted by rules #4 and #5 (`_handleTransgenes`). -/
def mkRule4Rows (A : Nat) (db : FactDB) : List KeeperRow :=
  rule4Insert db (mkSp6 A db) ++
    rule5Insert db (mkSp6 A db) (mkEc A db) (mkEcCt A db)

/-- Scratchpad after the `_handleTransgenes` delete. -/
def mkSp7 (A : Nat) (db : FactDB) : List SpRow :=
  rule4Delete db (mkSp6 A db)

/-- Rows inserted by rules #6 and #9 (`_handleDockingSites`). -/
def mkRule6Rows (A : Nat) (db : FactDB) : List KeeperRow :=
  rule6Insert (mkSp7 A db) (mkEc A db) (mkEcCt A db) ++
    rule9Insert db (mkSp7 A db)

/-- Scratchpad after the `_handleDockingSites` delete. -/
def mkSp8 (A : Nat) (db : FactDB) : List SpRow :=
  rule6Delete (mkSp7 A db)

/-- Rows inserted by rules #7 and #8 (`_handleOtherSingles`). -/
def mkRule7Rows (A : Nat) (db : FactDB) : List KeeperRow :=
  rule7Insert A db (mkSp8 A db) ++
    rule8Insert (mkSp8 A db) (mkEc A db) (mkEcCt A db)

/-- The final `genotype_keepers` contents, after `_removeNullsAndGtRosa`. -/
def finalKeepers (A : Nat) (db : FactDB) : List KeeperRow :=
  removeNullsAndGtRosa
    (mkKeepers1 A db ++ mkRule2Rows A db ++ mkRule3Rows A db ++
      mkRule4Rows A db ++ mkRule6Rows A db ++ mkRule7Rows A db)

/-- Genotype keys claimed by rule #1 (naturally simple). -/
def claimedByRule1 (A : Nat) (db : FactDB) : List Nat :=
  (mkKeepers1 A db).map KeeperRow.genotypeKey

/-- Genotype keys claimed by rule #2 (two-marker transgene exception). -/
def claimedByRule2 (A : Nat) (db : FactDB) : List Nat :=
  (mkRule2Rows A db).map KeeperRow.genotypeKey

/-- Genotype keys claimed by rule #3 (MutationInvolves, all clauses). -/
def claimedByRule3 (A : Nat) (db : FactDB) : List Nat :=
  (mkRule3Rows A db).map KeeperRow.genotypeKey

/-- Genotype keys claimed by the transgene rule (rules #4/#5). -/
def claimedByRule4 (A : Nat) (db : FactDB) : List Nat :=
  (mkRule4Rows A db).map KeeperRow.genotypeKey

/-- Genotype keys claimed by the docking-site rule (rules #6/#9). -/
def claimedByRule6 (A : Nat) (db : FactDB) : List Nat :=
  (mkRule6Rows A db).map KeeperRow.genotypeKey

/-- Genotype keys claimed by the remaining-singles rule (rules #7/#8). -/
def claimedByRule7 (A : Nat) (db : FactDB) : List Nat :=
  (mkRule7Rows A db).map KeeperRow.genotypeKey

/-! ### Structural lemmas about the cascade -/

theorem nodupTwoMemLength {α : Type} [DecidableEq α] {l : List α}
    (hl : l.Nodup) {a b : α} (ha : a ∈ l) (hb : b ∈ l) (hne : a ≠ b) :
    2 ≤ l.length := by
  have hcard := List.toFinset_card_of_nodup hl
  have h2 : 1 < l.toFinset.card :=
    Finset.one_lt_card.2 ⟨a, by simp [ha], b, by simp [hb], hne⟩
  omega

theorem mem_sqlGroupCount {α : Type} (l : List α) (key : α → Nat) (x : α)
    (hx : x ∈ l) :
    (key x, (l.filter fun y => key y == key x).length) ∈
      sqlGroupCount l key := by
  have hkey : key x ∈ (l.map key).dedup :=
    List.mem_dedup.2 (List.mem_map_of_mem key hx)
  exact List.mem_map.2 ⟨key x, hkey, rfl⟩

theorem buildScratchPad_mem {db : FactDB} {keepers : List KeeperRow}
    {pc : List (Nat × Nat)} {s : SpRow}
    (h : s ∈ buildScratchPad db keepers pc) :
    (∀ k ∈ keepers, k.genotypeKey ≠ s.genotypeKey) ∧
      ∃ gag ∈ db.gag, gag.genotypeKey = s.genotypeKey ∧
        gag.alleleKey = s.alleleKey ∧ gag.markerKey = s.markerKey := by
  simp only [buildScratchPad, List.mem_dedup, List.mem_flatMap,
    List.mem_filterMap, Option.ite_none_right_eq_some, Option.some.injEq,
    Bool.and_eq_true, beq_iff_eq, Bool.not_eq_true', List.any_eq_false,
    decide_eq_true_eq] at h
  obtain ⟨c, hc, gag, hgag, g, hg, m, hm, a1, ha1, a2, ha2, hcond, hrow⟩ := h
  simp only [and_assoc] at hcond
  obtain ⟨hkeep, hcg, _hcg2, _hmk, _rest⟩ := hcond
  constructor
  · intro k hk
    rw [← hrow]
    have := hkeep k hk
    simp only [← hcg]
    exact fun hEq => this hEq.symm
  · exact ⟨gag, hgag, by rw [← hrow], by rw [← hrow], by rw [← hrow]⟩

theorem mkSp1_subset (A : Nat) (db : FactDB) :
    ∀ s ∈ mkSp1 A db, s ∈ mkSp0 A db := by
  intro s h
  simp only [mkSp1, removeConditionalGenotypes] at h
  exact (List.mem_filter.1 h).1

theorem mkSp2_subset (A : Nat) (db : FactDB) :
    ∀ s ∈ mkSp2 A db, s ∈ mkSp1 A db := by
  intro s h
  simp only [mkSp2, removeReporterTransgenes] at h
  exact (List.mem_filter.1 h).1

theorem mkSp3_subset (A : Nat) (db : FactDB) :
    ∀ s ∈ mkSp3 A db, s ∈ mkSp2 A db := by
  intro s h
  simp only [mkSp3, removeTransactivators] at h
  exact (List.mem_filter.1 h).1

theorem mkSp4_subset (A : Nat) (db : FactDB) :
    ∀ s ∈ mkSp4 A db, s ∈ mkSp3 A db := by
  intro s h
  simp only [mkSp4, removeWildType] at h
  exact (List.mem_filter.1 h).1

theorem mkSp5_subset (A : Nat) (db : FactDB) :
    ∀ s ∈ mkSp5 A db, s ∈ mkSp4 A db := by
  intro s h
  simp only [mkSp5, rule2Delete] at h
  exact (List.mem_filter.1 h).1

theorem mkSp6_subset (A : Nat) (db : FactDB) :
    ∀ s ∈ mkSp6 A db, s ∈ mkSp5 A db := by
  intro s h
  simp only [mkSp6, rule3Delete] at h
  exact (List.mem_filter.1 h).1

theorem mkSp7_subset (A : Nat) (db : FactDB) :
    ∀ s ∈ mkSp7 A db, s ∈ mkSp6 A db := by
  intro s h
  simp only [mkSp7, rule4Delete] at h
  exact (List.mem_filter.1 h).1

theorem mkSp8_subset (A : Nat) (db : FactDB) :
    ∀ s ∈ mkSp8 A db, s ∈ mkSp7 A db := by
  intro s h
  simp only [mkSp8, rule6Delete] at h
  exact (List.mem_filter.1 h).1

theorem mkSp4_subset_sp0 (A : Nat) (db : FactDB) :
    ∀ s ∈ mkSp4 A db, s ∈ mkSp0 A db :=
  fun s h => mkSp1_subset A db s (mkSp2_subset A db s
    (mkSp3_subset A db s (mkSp4_subset A db s h)))

theorem mkSp5_subset_sp0 (A : Nat) (db : FactDB) :
    ∀ s ∈ mkSp5 A db, s ∈ mkSp0 A db :=
  fun s h => mkSp4_subset_sp0 A db s (mkSp5_subset A db s h)

theorem rule2Insert_mem {db : FactDB} {sp : List SpRow}
    {tradT tradCtT miCtT : List (Nat × Nat)} {pick : Bool} {k : KeeperRow}
    (h : k ∈ rule2Insert db sp tradT tradCtT miCtT pick) :
    ∃ s ∈ sp, s.genotypeKey = k.genotypeKey ∧
      ∃ tc ∈ tradCtT, tc.1 = k.genotypeKey ∧ tc.2 = 2 := by
  simp only [rule2Insert, List.mem_dedup, List.mem_flatMap,
    List.mem_filterMap, Option.ite_none_right_eq_some, Option.some.injEq,
    Bool.and_eq_true, beq_iff_eq, bne_iff_ne, Bool.not_eq_true',
    List.any_eq_false, decide_eq_true_eq] at h
  obtain ⟨s, hs, tc, htc, tt, htt, mt, hmt, tn, htn, nt, hnt, a1, ha1, a2,
    ha2, hcond, hrow⟩ := h
  simp only [and_assoc] at hcond
  obtain ⟨_h1, _h2, _h3, _h4, _h5, _h6, _h7, _h8, _h9, _h10, hstc, htc2,
    _rest⟩ := hcond
  refine ⟨s, hs, by rw [← hrow], tc, htc, ?_, htc2⟩
  rw [← hrow]
  exact hstc.symm

theorem rule3InsertMi1_mem {sp : List SpRow} {mi1 : List MiRow}
    {k : KeeperRow} (h : k ∈ rule3InsertMi1 sp mi1) :
    ∃ s ∈ sp, s.genotypeKey = k.genotypeKey ∧
      ∃ m ∈ mi1, m.genotypeKey = k.genotypeKey := by
  simp only [rule3InsertMi1, List.mem_flatMap, List.mem_filterMap,
    Option.ite_none_right_eq_some, Option.some.injEq, beq_iff_eq] at h
  obtain ⟨s, hs, m, hm, hcond, hrow⟩ := h
  exact ⟨s, hs, by rw [← hrow], m, hm, by rw [← hrow]; exact hcond.symm⟩

theorem rule3InsertMi2_mem {sp : List SpRow} {mi2 : List MiRow}
    {k : KeeperRow} (h : k ∈ rule3InsertMi2 sp mi2) :
    ∃ s ∈ sp, s.genotypeKey = k.genotypeKey ∧
      ∃ m ∈ mi2, m.genotypeKey = k.genotypeKey := by
  simp only [rule3InsertMi2, List.mem_flatMap, List.mem_filterMap,
    Option.ite_none_right_eq_some, Option.some.injEq, beq_iff_eq] at h
  obtain ⟨s, hs, m, hm, hcond, hrow⟩ := h
  exact ⟨s, hs, by rw [← hrow], m, hm, by rw [← hrow]; exact hcond.symm⟩

theorem rule3InsertMi3_mem {sp : List SpRow} {mi3 : List MiRow}
    {k : KeeperRow} (h : k ∈ rule3InsertMi3 sp mi3) :
    ∃ s ∈ sp, s.genotypeKey = k.genotypeKey ∧
      ∃ m ∈ mi3, m.genotypeKey = k.genotypeKey := by
  simp only [rule3InsertMi3, List.mem_flatMap, List.mem_filterMap,
    Option.ite_none_right_eq_some, Option.some.injEq, beq_iff_eq] at h
  obtain ⟨s, hs, m, hm, hcond, hrow⟩ := h
  exact ⟨s, hs, by rw [← hrow], m, hm, by rw [← hrow]; exact hcond.symm⟩

theorem rule4Insert_mem {db : FactDB} {sp : List SpRow} {k : KeeperRow}
    (h : k ∈ rule4Insert db sp) :
    ∃ s ∈ sp, s.genotypeKey = k.genotypeKey ∧
      ∃ m ∈ db.markers, s.markerKey = m.markerKey ∧
        m.markerTypeKey = 12 := by
  simp only [rule4Insert, List.mem_flatMap, List.mem_filterMap,
    Option.ite_none_right_eq_some, Option.some.injEq, Bool.and_eq_true,
    beq_iff_eq] at h
  obtain ⟨s, hs, m, hm, ⟨hmk, ht⟩, hrow⟩ := h
  exact ⟨s, hs, by rw [← hrow], m, hm, hmk, ht⟩

theorem rule5Insert_mem {db : FactDB} {sp : List SpRow} {ecT : List EcRow}
    {ecCtT : List (Nat × Nat)} {k : KeeperRow}
    (h : k ∈ rule5Insert db sp ecT ecCtT) :
    ∃ s ∈ sp, s.genotypeKey = k.genotypeKey ∧
      ∃ m ∈ db.markers, s.markerKey = m.markerKey ∧
        m.markerTypeKey = 12 := by
  simp only [rule5Insert, List.mem_flatMap, List.mem_filterMap,
    Option.ite_none_right_eq_some, Option.some.injEq, Bool.and_eq_true,
    beq_iff_eq] at h
  obtain ⟨s, hs, m, hm, ct, hct, e, he, hcond, hrow⟩ := h
  simp only [and_assoc] at hcond
  obtain ⟨hmk, ht, _rest⟩ := hcond
  exact ⟨s, hs, by rw [← hrow], m, hm, hmk, ht⟩

theorem rule6Insert_mem {sp : List SpRow} {ecT : List EcRow}
    {ecCtT : List (Nat × Nat)} {k : KeeperRow}
    (h : k ∈ rule6Insert sp ecT ecCtT) :
    ∃ s ∈ sp, s.genotypeKey = k.genotypeKey ∧
      DOCKING_SITES.contains s.markerKey = true := by
  simp only [rule6Insert, List.mem_flatMap, List.mem_filterMap,
    Option.ite_none_right_eq_some, Option.some.injEq, Bool.and_eq_true,
    beq_iff_eq] at h
  obtain ⟨s, hs, ct, hct, e, he, hcond, hrow⟩ := h
  simp only [and_assoc] at hcond
  obtain ⟨hdock, _rest⟩ := hcond
  exact ⟨s, hs, by rw [← hrow], hdock⟩

theorem rule9Insert_mem {db : FactDB} {sp : List SpRow} {k : KeeperRow}
    (h : k ∈ rule9Insert db sp) :
    ∃ s ∈ sp, s.genotypeKey = k.genotypeKey ∧
      DOCKING_SITES.contains s.markerKey = true := by
  simp only [rule9Insert, List.mem_filterMap,
    Option.ite_none_right_eq_some, Option.some.injEq, Bool.and_eq_true,
    Bool.or_eq_true, beq_iff_eq] at h
  obtain ⟨s, hs, ⟨hdock, _⟩, hrow⟩ := h
  refine ⟨s, hs, by rw [← hrow], ?_⟩
  rcases hdock with hH | hC
  · simp [DOCKING_SITES, hH]
  · simp [DOCKING_SITES, hC]

theorem rule7Insert_mem {A : Nat} {db : FactDB} {sp : List SpRow}
    {k : KeeperRow} (h : k ∈ rule7Insert A db sp) :
    ∃ s ∈ sp, s.genotypeKey = k.genotypeKey := by
  simp only [rule7Insert, List.mem_filterMap,
    Option.ite_none_right_eq_some, Option.some.injEq] at h
  obtain ⟨s, hs, _hcond, hrow⟩ := h
  exact ⟨s, hs, by rw [← hrow]⟩

theorem rule8Insert_mem {sp : List SpRow} {ecT : List EcRow}
    {ecCtT : List (Nat × Nat)} {k : KeeperRow}
    (h : k ∈ rule8Insert sp ecT ecCtT) :
    ∃ s ∈ sp, s.genotypeKey = k.genotypeKey := by
  simp only [rule8Insert, List.mem_flatMap, List.mem_filterMap,
    Option.ite_none_right_eq_some, Option.some.injEq, Bool.and_eq_true,
    beq_iff_eq] at h
  obtain ⟨s, hs, ct, hct, e, he, _hcond, hrow⟩ := h
  exact ⟨s, hs, by rw [← hrow]⟩

theorem tradPairs_intro {db : FactDB} {sp : List SpRow} {s : SpRow}
    (hs : s ∈ sp) (ha : ∃ a ∈ db.alleles, a.alleleKey = s.alleleKey) :
    (s.genotypeKey, s.markerKey) ∈ tradPairs db sp := by
  obtain ⟨a, hamem, haeq⟩ := ha
  simp only [tradPairs, List.mem_dedup, List.mem_flatMap,
    List.mem_filterMap, Option.ite_none_right_eq_some, Option.some.injEq,
    beq_iff_eq]
  exact ⟨s, hs, a, hamem, haeq.symm, rfl⟩

/-- Every scratchpad row's allele key comes from a `GXD_AlleleGenotype`
row, so referential integrity of the snapshot yields an `ALL_Allele` row
for it. -/
theorem mkSp0_allele_exists (A : Nat) (db : FactDB)
    (hInt : ∀ r ∈ db.gag, ∃ a ∈ db.alleles, a.alleleKey = r.alleleKey) :
    ∀ s ∈ mkSp0 A db, ∃ a ∈ db.alleles, a.alleleKey = s.alleleKey := by
  intro s hs
  obtain ⟨_, gag, hgag, _, haeq, _⟩ := buildScratchPad_mem hs
  obtain ⟨a, hamem, ha⟩ := hInt gag hgag
  exact ⟨a, hamem, by rw [ha, haeq]⟩

/-- After the rule #2 delete, no scratchpad genotype has a `trad_ct` count
above one. -/
theorem mkSp5_no_multi (A : Nat) (db : FactDB) :
    ∀ p ∈ mkSp5 A db, ∀ tc ∈ mkTradCt A db,
      ¬(tc.1 = p.genotypeKey ∧ 1 < tc.2) := by
  intro p hp tc htc
  simp only [mkSp5, rule2Delete, List.mem_filter, Bool.not_eq_true',
    List.any_eq_false, Bool.and_eq_true, beq_iff_eq, decide_eq_true_eq,
    not_and] at hp
  intro ⟨h1, h2⟩
  exact hp.2 tc htc h1 h2

/-- Under referential integrity, every genotype surviving the rule #2 delete
has a single traditional marker: all its scratchpad rows agree on the
marker key. -/
theorem mkSp5_single_marker (A : Nat) (db : FactDB)
    (hInt : ∀ r ∈ db.gag, ∃ a ∈ db.alleles, a.alleleKey = r.alleleKey) :
    ∀ p ∈ mkSp5 A db, ∀ q ∈ mkSp5 A db,
      p.genotypeKey = q.genotypeKey → p.markerKey = q.markerKey := by
  intro p hp q hq hg
  by_contra hne
  have hp4 := mkSp5_subset A db p hp
  have hq4 := mkSp5_subset A db q hq
  have hpa := mkSp0_allele_exists A db hInt p (mkSp4_subset_sp0 A db p hp4)
  have hqa := mkSp0_allele_exists A db hInt q (mkSp4_subset_sp0 A db q hq4)
  have hpT : (p.genotypeKey, p.markerKey) ∈ mkTrad A db :=
    tradPairs_intro hp4 hpa
  have hqT : (q.genotypeKey, q.markerKey) ∈ mkTrad A db :=
    tradPairs_intro hq4 hqa
  rw [← hg] at hqT
  have hNodup : (mkTrad A db).Nodup := by
    simp only [mkTrad, tradPairs]
    exact List.nodup_dedup _
  have hfil : ((mkTrad A db).filter
      fun y => Prod.fst y == p.genotypeKey).Nodup := hNodup.filter _
  have hpF : (p.genotypeKey, p.markerKey) ∈
      (mkTrad A db).filter fun y => Prod.fst y == p.genotypeKey :=
    List.mem_filter.2 ⟨hpT, by simp⟩
  have hqF : (p.genotypeKey, q.markerKey) ∈
      (mkTrad A db).filter fun y => Prod.fst y == p.genotypeKey :=
    List.mem_filter.2 ⟨hqT, by simp⟩
  have hlen : 2 ≤ ((mkTrad A db).filter
      fun y => Prod.fst y == p.genotypeKey).length :=
    nodupTwoMemLength hfil hpF hqF (by simp [Prod.ext_iff]; exact hne)
  have hentry : (p.genotypeKey, ((mkTrad A db).filter
      fun y => Prod.fst y == p.genotypeKey).length) ∈ mkTradCt A db := by
    have := mem_sqlGroupCount (mkTrad A db) Prod.fst
      (p.genotypeKey, p.markerKey) hpT
    simpa [mkTradCt, tradCt] using this
  exact mkSp5_no_multi A db p hp _ hentry ⟨rfl, by omega⟩

/-- The rule #3 deletes remove every `mi1` / `mi2` / `mi3` genotype from the
scratchpad. -/
theorem mkSp6_no_mi (A : Nat) (db : FactDB) :
    ∀ p ∈ mkSp6 A db,
      (∀ m ∈ mkMi1 A db, m.genotypeKey ≠ p.genotypeKey) ∧
      (∀ m ∈ mkMi2 A db, m.genotypeKey ≠ p.genotypeKey) ∧
      (∀ m ∈ mkMi3 A db, m.genotypeKey ≠ p.genotypeKey) := by
  intro p hp
  simp only [mkSp6, rule3Delete, List.mem_filter, Bool.and_eq_true,
    Bool.not_eq_true', List.any_eq_false, beq_iff_eq] at hp
  obtain ⟨_, ⟨⟨_hmict, h1⟩, h2⟩, h3⟩ := hp
  exact ⟨h1, h2, h3⟩

/-- The `_handleTransgenes` delete removes every genotype having a
transgene-marker row. -/
theorem mkSp7_no_transgene (A : Nat) (db : FactDB) :
    ∀ p ∈ mkSp7 A db, ∀ s ∈ mkSp6 A db,
      ¬(s.genotypeKey = p.genotypeKey ∧
        ∃ m ∈ db.markers, s.markerKey = m.markerKey ∧
          m.markerTypeKey = 12) := by
  intro p hp s hs
  simp only [mkSp7, rule4Delete, List.mem_filter, Bool.not_eq_true',
    List.any_eq_false, Bool.and_eq_true, beq_iff_eq, not_and] at hp
  intro ⟨hgeq, m, hm, hmk, ht⟩
  apply hp.2 s hs
  rw [List.any_eq_true]
  exact ⟨m, hm, by simp [hgeq, hmk, ht]⟩

/-- The `_handleDockingSites` delete removes every docking-site row. -/
theorem mkSp8_no_docking (A : Nat) (db : FactDB) :
    ∀ p ∈ mkSp8 A db, ¬(DOCKING_SITES.contains p.markerKey = true) := by
  intro p hp
  simp only [mkSp8, rule6Delete, List.mem_filter, Bool.not_eq_true'] at hp
  intro hcon
  rw [hp.2] at hcon
  exact Bool.false_ne_true hcon

theorem claimedByRule2_stage (A : Nat) (db : FactDB) :
    ∀ g ∈ claimedByRule2 A db, ∃ s ∈ mkSp4 A db, s.genotypeKey = g ∧
      ∃ tc ∈ mkTradCt A db, tc.1 = g ∧ tc.2 = 2 := by
  intro g hg
  simp only [claimedByRule2, List.mem_map] at hg
  obtain ⟨k, hk, rfl⟩ := hg
  simp only [mkRule2Rows, List.mem_append] at hk
  rcases hk with hk | hk
  · exact rule2Insert_mem hk
  · exact rule2Insert_mem hk

theorem claimedByRule3_stage (A : Nat) (db : FactDB) :
    ∀ g ∈ claimedByRule3 A db, ∃ s ∈ mkSp5 A db, s.genotypeKey = g ∧
      ((∃ m ∈ mkMi1 A db, m.genotypeKey = g) ∨
        (∃ m ∈ mkMi2 A db, m.genotypeKey = g) ∨
        (∃ m ∈ mkMi3 A db, m.genotypeKey = g)) := by
  intro g hg
  simp only [claimedByRule3, List.mem_map] at hg
  obtain ⟨k, hk, rfl⟩ := hg
  simp only [mkRule3Rows, List.mem_append] at hk
  rcases hk with (hk | hk) | hk
  · obtain ⟨s, hs, hgeq, m, hm, hmg⟩ := rule3InsertMi1_mem hk
    exact ⟨s, hs, hgeq, Or.inl ⟨m, hm, hmg⟩⟩
  · obtain ⟨s, hs, hgeq, m, hm, hmg⟩ := rule3InsertMi2_mem hk
    exact ⟨s, hs, hgeq, Or.inr (Or.inl ⟨m, hm, hmg⟩)⟩
  · obtain ⟨s, hs, hgeq, m, hm, hmg⟩ := rule3InsertMi3_mem hk
    exact ⟨s, hs, hgeq, Or.inr (Or.inr ⟨m, hm, hmg⟩)⟩

theorem claimedByRule4_stage (A : Nat) (db : FactDB) :
    ∀ g ∈ claimedByRule4 A db, ∃ s ∈ mkSp6 A db, s.genotypeKey = g ∧
      ∃ m ∈ db.markers, s.markerKey = m.markerKey ∧
        m.markerTypeKey = 12 := by
  intro g hg
  simp only [claimedByRule4, List.mem_map] at hg
  obtain ⟨k, hk, rfl⟩ := hg
  simp only [mkRule4Rows, List.mem_append] at hk
  rcases hk with hk | hk
  · exact rule4Insert_mem hk
  · exact rule5Insert_mem hk

theorem claimedByRule6_stage (A : Nat) (db : FactDB) :
    ∀ g ∈ claimedByRule6 A db, ∃ s ∈ mkSp7 A db, s.genotypeKey = g ∧
      DOCKING_SITES.contains s.markerKey = true := by
  intro g hg
  simp only [claimedByRule6, List.mem_map] at hg
  obtain ⟨k, hk, rfl⟩ := hg
  simp only [mkRule6Rows, List.mem_append] at hk
  rcases hk with hk | hk
  · exact rule6Insert_mem hk
  · exact rule9Insert_mem hk

theorem claimedByRule7_stage (A : Nat) (db : FactDB) :
    ∀ g ∈ claimedByRule7 A db, ∃ s ∈ mkSp8 A db, s.genotypeKey = g := by
  intro g hg
  simp only [claimedByRule7, List.mem_map] at hg
  obtain ⟨k, hk, rfl⟩ := hg
  simp only [mkRule7Rows, List.mem_append] at hk
  rcases hk with hk | hk
  · exact rule7Insert_mem hk
  · exact rule8Insert_mem hk

set_option maxHeartbeats 2000000 in
/-- Claim C4: first-match exclusivity of the rule cascade.  Under referential
integrity of the snapshot (every allele-genotype link resolves to an
`ALL_Allele` row), (i) the genotype sets claimed by the six rule steps of the
cascade (naturally simple; two-marker transgene exception; MutationInvolves;
transgene; docking site; remaining singles) are pairwise disjoint, so at most
one rule claims any genotype; (ii) a genotype claimed by the naturally-simple
rule never enters the scratchpad working set, so no later rule ever evaluates
it; and (iii) every genotype claimed by an intermediate rule is deleted from
the scratchpad before the next rule runs. -/
theorem cascade_first_match_exclusive (A : Nat) (db : FactDB)
    (hInt : ∀ r ∈ db.gag, ∃ a ∈ db.alleles, a.alleleKey = r.alleleKey) :
    List.Pairwise (fun X Y => ∀ g, g ∈ X → g ∉ Y)
      [claimedByRule1 A db, claimedByRule2 A db, claimedByRule3 A db,
        claimedByRule4 A db, claimedByRule6 A db, claimedByRule7 A db] ∧
    (∀ g ∈ claimedByRule1 A db, ∀ s ∈ mkSp0 A db, s.genotypeKey ≠ g) ∧
    (∀ g ∈ claimedByRule2 A db, ∀ s ∈ mkSp5 A db, s.genotypeKey ≠ g) ∧
    (∀ g ∈ claimedByRule3 A db, ∀ s ∈ mkSp6 A db, s.genotypeKey ≠ g) ∧
    (∀ g ∈ claimedByRule4 A db, ∀ s ∈ mkSp7 A db, s.genotypeKey ≠ g) ∧
    (∀ g ∈ claimedByRule6 A db, ∀ s ∈ mkSp8 A db, s.genotypeKey ≠ g) := by
  have hC1 : ∀ g ∈ claimedByRule1 A db, ∀ s ∈ mkSp0 A db,
      s.genotypeKey ≠ g := by
    intro g hg s hs heq
    simp only [claimedByRule1, List.mem_map] at hg
    obtain ⟨k, hk, hkg⟩ := hg
    have hb : s ∈ buildScratchPad db (mkKeepers1 A db) (mkPc0 A db) := hs
    exact (buildScratchPad_mem hb).1 k hk (by rw [hkg, heq])
  have hC2 : ∀ g ∈ claimedByRule2 A db, ∀ s ∈ mkSp5 A db,
      s.genotypeKey ≠ g := by
    intro g hg s hs heq
    obtain ⟨_, _, _, tc, htc, htc1, htc2⟩ := claimedByRule2_stage A db g hg
    exact mkSp5_no_multi A db s hs tc htc ⟨by rw [htc1, ← heq], by omega⟩
  have hC3 : ∀ g ∈ claimedByRule3 A db, ∀ s ∈ mkSp6 A db,
      s.genotypeKey ≠ g := by
    intro g hg s hs heq
    obtain ⟨_, _, _, hmi⟩ := claimedByRule3_stage A db g hg
    obtain ⟨h1, h2, h3⟩ := mkSp6_no_mi A db s hs
    rcases hmi with ⟨m, hm, hmg⟩ | ⟨m, hm, hmg⟩ | ⟨m, hm, hmg⟩
    · exact h1 m hm (by rw [hmg, ← heq])
    · exact h2 m hm (by rw [hmg, ← heq])
    · exact h3 m hm (by rw [hmg, ← heq])
  have hC4 : ∀ g ∈ claimedByRule4 A db, ∀ s ∈ mkSp7 A db,
      s.genotypeKey ≠ g := by
    intro g hg s hs heq
    obtain ⟨t, ht, htg, m, hm, hmk, hty⟩ := claimedByRule4_stage A db g hg
    exact mkSp7_no_transgene A db s hs t ht
      ⟨by rw [htg, ← heq], m, hm, hmk, hty⟩
  have hC6 : ∀ g ∈ claimedByRule6 A db, ∀ s ∈ mkSp8 A db,
      s.genotypeKey ≠ g := by
    intro g hg s hs heq
    obtain ⟨t, ht, htg, hdock⟩ := claimedByRule6_stage A db g hg
    have hs7 := mkSp8_subset A db s hs
    have hs5 := mkSp6_subset A db s (mkSp7_subset A db s hs7)
    have ht5 := mkSp6_subset A db t (mkSp7_subset A db t ht)
    have hmk : s.markerKey = t.markerKey :=
      mkSp5_single_marker A db hInt s hs5 t ht5 (by rw [htg, ← heq])
    exact mkSp8_no_docking A db s hs (by rw [hmk]; exact hdock)
  refine ⟨?_, hC1, hC2, hC3, hC4, hC6⟩
  have sub50 := mkSp5_subset_sp0 A db
  have sub65 := mkSp6_subset A db
  have sub76 := mkSp7_subset A db
  have sub87 := mkSp8_subset A db
  have sub40 := mkSp4_subset_sp0 A db
  simp only [List.pairwise_cons, List.mem_cons, List.not_mem_nil, or_false]
  refine ⟨?_, ?_, ?_, ?_, ?_, fun a' h => h.elim, List.Pairwise.nil⟩
  · intro Y hY g hg1 hgY
    rcases hY with rfl | rfl | rfl | rfl | rfl
    · obtain ⟨s, hs, hgeq, _⟩ := claimedByRule2_stage A db g hgY
      exact hC1 g hg1 s (sub40 s hs) hgeq
    · obtain ⟨s, hs, hgeq, _⟩ := claimedByRule3_stage A db g hgY
      exact hC1 g hg1 s (sub50 s hs) hgeq
    · obtain ⟨s, hs, hgeq, _⟩ := claimedByRule4_stage A db g hgY
      exact hC1 g hg1 s (sub50 s (sub65 s hs)) hgeq
    · obtain ⟨s, hs, hgeq, _⟩ := claimedByRule6_stage A db g hgY
      exact hC1 g hg1 s (sub50 s (sub65 s (sub76 s hs))) hgeq
    · obtain ⟨s, hs, hgeq⟩ := claimedByRule7_stage A db g hgY
      exact hC1 g hg1 s (sub50 s (sub65 s (sub76 s (sub87 s hs)))) hgeq
  · intro Y hY g hg2 hgY
    rcases hY with rfl | rfl | rfl | rfl
    · obtain ⟨s, hs, hgeq, _⟩ := claimedByRule3_stage A db g hgY
      exact hC2 g hg2 s hs hgeq
    · obtain ⟨s, hs, hgeq, _⟩ := claimedByRule4_stage A db g hgY
      exact hC2 g hg2 s (sub65 s hs) hgeq
    · obtain ⟨s, hs, hgeq, _⟩ := claimedByRule6_stage A db g hgY
      exact hC2 g hg2 s (sub65 s (sub76 s hs)) hgeq
    · obtain ⟨s, hs, hgeq⟩ := claimedByRule7_stage A db g hgY
      exact hC2 g hg2 s (sub65 s (sub76 s (sub87 s hs))) hgeq
  · intro Y hY g hg3 hgY
    rcases hY with rfl | rfl | rfl
    · obtain ⟨s, hs, hgeq, _⟩ := claimedByRule4_stage A db g hgY
      exact hC3 g hg3 s hs hgeq
    · obtain ⟨s, hs, hgeq, _⟩ := claimedByRule6_stage A db g hgY
      exact hC3 g hg3 s (sub76 s hs) hgeq
    · obtain ⟨s, hs, hgeq⟩ := claimedByRule7_stage A db g hgY
      exact hC3 g hg3 s (sub76 s (sub87 s hs)) hgeq
  · intro Y hY g hg4 hgY
    rcases hY with rfl | rfl
    · obtain ⟨s, hs, hgeq, _⟩ := claimedByRule6_stage A db g hgY
      exact hC4 g hg4 s hs hgeq
    · obtain ⟨s, hs, hgeq⟩ := claimedByRule7_stage A db g hgY
      exact hC4 g hg4 s (sub87 s hs) hgeq
  · intro Y hY g hg6 hgY
    rcases hY with rfl
    obtain ⟨s, hs, hgeq⟩ := claimedByRule7_stage A db g hgY
    exact hC6 g hg6 s hs hgeq

/-! ### The allele-rollup variant of rule #1 (rollupallelelib.py)

`rollupallelelib.py` ships with its `testSQL` debug filter assigned (the
module sets `testSQL = ''` under a `# no testing` comment and then immediately
reassigns it to a hard-coded list of genotype accession ids), so its
`_countAllelePairsPerGenotype('GXD_AlleleGenotype')` only counts genotypes
whose MGI accession id is in that list. -/

/-- The hard-coded genotype accession ids of the `testSQL` filter shipped in
`rollupallelelib.py`. -/
def TEST_GENOTYPES : List String :=
  ["MGI:3776488", "MGI:2667804", "MGI:2173405", "MGI:3799369",
   "MGI:3723214", "MGI:2665793", "MGI:3814544", "MGI:2678410",
   "MGI:5439284", "MGI:3836962", "MGI:3510920", "MGI:5897214",
   "MGI:5558945", "MGI:5882410", "MGI:3613531", "MGI:3837691",
   "MGI:3776520", "MGI:3698007", "MGI:3814907", "MGI:5690044",
   "MGI:6450805"]

/-- The `testSQL` condition of rollupallelelib: the genotype has an accession
row of MGI type 12 whose id is in the hard-coded list. -/
def passesTestSQL (db : FactDB) (g : Nat) : Bool :=
  db.accs.any fun testg =>
    g == testg.objectKey && testg.mgiTypeKey == 12 &&
      TEST_GENOTYPES.contains testg.accid

/-- `rollupallelelib._countAllelePairsPerGenotype('GXD_AlleleGenotype')`:
like the marker-library version, but with the shipped `testSQL` filter
restricting the counted genotypes. -/
def pairCountsFromGagAllele (A : Nat) (db : FactDB) : List (Nat × Nat) :=
  sqlGroupCount
    (db.gag.filter fun g =>
      hasQualifyingAnnot A db g.genotypeKey &&
        passesTestSQL db g.genotypeKey)
    (fun g => g.genotypeKey)

/-- Row of the allele-library `genotype_keepers` table (allele target). -/
structure AKeeperRow where
  genotypeKey : Nat
  genotypeType : String
  alleleKey : Option Nat
  symbol : String
  gaccid : String
  aaccid : String
  deriving DecidableEq, Repr

/-- `rollupallelelib._keepNaturallySimpleGenotypes`: rule #1, one allele
genotype (single pair, not conditional, with a non-wild-type allele; unlike
the marker variant there is no MutationInvolves or
inserted-expressed-sequence condition). -/
def keepNaturallySimpleAllele (_A : Nat) (db : FactDB)
    (pc : List (Nat × Nat)) : List AKeeperRow :=
  (pc.flatMap fun c =>
    db.gag.flatMap fun p =>
      db.genotypes.flatMap fun gg =>
        db.alleles.flatMap fun a =>
          db.accs.flatMap fun a1 =>
            db.accs.filterMap fun a2 =>
              if c.2 == 1 && c.1 == p.genotypeKey &&
                  p.genotypeKey == gg.genotypeKey && gg.isConditional == 0 &&
                  p.alleleKey == a.alleleKey &&
                  c.1 == a1.objectKey && a1.mgiTypeKey == 12 &&
                  a1.logicalDbKey == 1 && a1.prefixPart == "MGI:" &&
                  p.alleleKey == a2.objectKey && a2.mgiTypeKey == 11 &&
                  a2.logicalDbKey == 1 && a2.prefixPart == "MGI:" &&
                  a2.preferred == 1 &&
                  (db.gag.any fun gag =>
                    db.alleles.any fun al =>
                      c.1 == gag.genotypeKey &&
                        gag.alleleKey == al.alleleKey && al.isWildType == 0)
              then some ⟨c.1, "rule #1 : one allele genotype",
                some p.alleleKey, a.symbol, a1.accid, a2.accid⟩
              else none).dedup

/-! ### Concrete snapshots for witnesses and counterexamples -/

/-- A small snapshot: genotype 101, a single allele pair (allele 201, marker
301), non-conditional, non-wild-type allele, no relationships, one qualifying
MP annotation, full accession rows.  Its genotype accession id `MGI:7000001`
is not in `TEST_GENOTYPES`. -/
def exampleDB : FactDB where
  gag := [⟨101, 201, 301⟩]
  genotypes := [⟨101, 0⟩]
  alleles := [⟨201, 301, 1, 0, "A1"⟩]
  markers := [⟨301, 1, 1, "M1"⟩]
  rels := []
  vannots := [⟨1002, 101, 5000⟩]
  accs := [⟨101, 12, 1, "MGI:", 1, "MGI:7000001"⟩,
           ⟨301, 2, 1, "MGI:", 1, "MGI:3000001"⟩,
           ⟨201, 11, 1, "MGI:", 1, "MGI:2000001"⟩]

/-- Witness for claim C4 at the concrete snapshot `exampleDB` (referential
integrity holds there). -/
theorem cascade_first_match_exclusive_witness :
    (∀ r ∈ exampleDB.gag, ∃ a ∈ exampleDB.alleles,
      a.alleleKey = r.alleleKey) ∧
    (List.Pairwise (fun X Y => ∀ g, g ∈ X → g ∉ Y)
      [claimedByRule1 1002 exampleDB, claimedByRule2 1002 exampleDB,
        claimedByRule3 1002 exampleDB, claimedByRule4 1002 exampleDB,
        claimedByRule6 1002 exampleDB, claimedByRule7 1002 exampleDB] ∧
    (∀ g ∈ claimedByRule1 1002 exampleDB, ∀ s ∈ mkSp0 1002 exampleDB,
      s.genotypeKey ≠ g) ∧
    (∀ g ∈ claimedByRule2 1002 exampleDB, ∀ s ∈ mkSp5 1002 exampleDB,
      s.genotypeKey ≠ g) ∧
    (∀ g ∈ claimedByRule3 1002 exampleDB, ∀ s ∈ mkSp6 1002 exampleDB,
      s.genotypeKey ≠ g) ∧
    (∀ g ∈ claimedByRule4 1002 exampleDB, ∀ s ∈ mkSp7 1002 exampleDB,
      s.genotypeKey ≠ g) ∧
    (∀ g ∈ claimedByRule6 1002 exampleDB, ∀ s ∈ mkSp8 1002 exampleDB,
      s.genotypeKey ≠ g)) :=
  ⟨by decide, cascade_first_match_exclusive 1002 exampleDB (by decide)⟩

/-- Same facts as `exampleDB` but with the genotype accession id
`MGI:3776488`, which IS in the shipped `testSQL` list of
rollupallelelib.py. -/
def exampleDBListed : FactDB where
  gag := [⟨101, 201, 301⟩]
  genotypes := [⟨101, 0⟩]
  alleles := [⟨201, 301, 1, 0, "A1"⟩]
  markers := [⟨301, 1, 1, "M1"⟩]
  rels := []
  vannots := [⟨1002, 101, 5000⟩]
  accs := [⟨101, 12, 1, "MGI:", 1, "MGI:3776488"⟩,
           ⟨301, 2, 1, "MGI:", 1, "MGI:3000001"⟩,
           ⟨201, 11, 1, "MGI:", 1, "MGI:2000001"⟩]

/-- Claim C6: evaluation at the failing input.  Genotype 101 of `exampleDB`
satisfies every hypothesis of the naturally-simple rule (single allele pair,
non-conditional, non-wild-type allele, no MutationInvolves, no
inserted-expressed-sequence attribute), and the marker-rollup variant claims
it under rule #1 with its single marker.  The allele-rollup variant as
shipped, however, counts no allele pairs for it at all — its
`_countAllelePairsPerGenotype` carries the leftover `testSQL` debug filter and
the genotype's accession id `MGI:7000001` is not in the hard-coded list — so
rule #1 never claims it there.  On `exampleDBListed`, identical except that
the accession id is in the list, the allele variant does claim it, isolating
the filter as the only cause. -/
theorem naturallySimple_allele_testSQL_eval :
    pairCountsFromGag 1002 exampleDB = [(101, 1)] ∧
    (⟨101, "rule #1 : one marker genotype", some 301, "M1",
       "MGI:7000001", "MGI:3000001"⟩ : KeeperRow) ∈
      mkKeepers1 1002 exampleDB ∧
    pairCountsFromGagAllele 1002 exampleDB = [] ∧
    keepNaturallySimpleAllele 1002 exampleDB
      (pairCountsFromGagAllele 1002 exampleDB) = [] ∧
    keepNaturallySimpleAllele 1002 exampleDBListed
      (pairCountsFromGagAllele 1002 exampleDBListed) =
      [⟨101, "rule #1 : one allele genotype", some 201, "A1",
        "MGI:3776488", "MGI:2000001"⟩] := by
  decide

/-- Claim C7: no row of the final keepers relation — the relation from which
all derived annotations are materialized — targets the Gt(ROSA)26Sor
docking-site marker (key 37270) or a null marker, because
`_removeNullsAndGtRosa` runs last. -/
theorem finalKeepers_no_gtrosa_no_null (A : Nat) (db : FactDB) :
    ∀ r ∈ finalKeepers A db,
      r.markerKey ≠ some GT_ROSA ∧ r.markerKey ≠ none := by
  intro r hr
  simp only [finalKeepers, removeNullsAndGtRosa, List.mem_filter,
    bne_iff_ne, ne_eq] at hr
  exact ⟨hr.1.2, hr.2⟩

/-- Witness for claim C7: on `exampleDB` the final keepers relation is
nonempty, and the theorem applies to its row. -/
theorem finalKeepers_no_gtrosa_no_null_witness :
    (⟨101, "rule #1 : one marker genotype", some 301, "M1",
       "MGI:7000001", "MGI:3000001"⟩ : KeeperRow) ∈
      finalKeepers 1002 exampleDB ∧
    ((⟨101, "rule #1 : one marker genotype", some 301, "M1",
       "MGI:7000001", "MGI:3000001"⟩ : KeeperRow).markerKey ≠
        some GT_ROSA ∧
      (⟨101, "rule #1 : one marker genotype", some 301, "M1",
       "MGI:7000001", "MGI:3000001"⟩ : KeeperRow).markerKey ≠ none) :=
  ⟨by decide, finalKeepers_no_gtrosa_no_null 1002 exampleDB _ (by decide)⟩

/-- Claim C2 (amended): the transgene clause of the MutationInvolves rule.
For a genotype reaching the rule with a single pair count, a scratchpad row
whose allele has a MutationInvolves row, exactly one MutationInvolves marker,
and a transgene-typed traditional marker, the `mi2` union keeps BOTH the
MutationInvolves marker AND the traditional transgene marker: rows for both
markers are inserted into the keepers relation by this clause. -/
theorem rule3_transgene_clause_keeps_both
    (db : FactDB) (pc : List (Nat × Nat)) (sp : List SpRow)
    (hmi : List HmiRow) (miCtT : List (Nat × Nat))
    (c : Nat × Nat) (s : SpRow) (mi : HmiRow) (m : MarkerRow)
    (hc : c ∈ pc) (hc2 : c.2 = 1) (hcg : c.1 = s.genotypeKey)
    (hs : s ∈ sp) (hmg : s.genotypeKey = mi.genotypeKey)
    (hma : s.alleleKey = mi.alleleKey) (hmimem : mi ∈ hmi)
    (hct : (s.genotypeKey, 1) ∈ miCtT)
    (hm : m ∈ db.markers) (hmk : s.markerKey = m.markerKey)
    (ht : m.markerTypeKey = 12) :
    (⟨s.genotypeKey, "rule #3 : transgene clause", some mi.markerKey,
        mi.symbol, s.gaccid, s.maccid⟩ : KeeperRow) ∈
      rule3InsertMi2 sp (mi2Rows db pc sp hmi miCtT) ∧
    (⟨s.genotypeKey, "rule #3 : transgene clause", some s.markerKey,
        s.symbol, s.gaccid, s.maccid⟩ : KeeperRow) ∈
      rule3InsertMi2 sp (mi2Rows db pc sp hmi miCtT) := by
  have hcond : mi2Cond db miCtT c s mi = true := by
    simp only [mi2Cond, Bool.and_eq_true, beq_iff_eq, List.any_eq_true]
    refine ⟨⟨⟨⟨⟨hc2, hcg⟩, hmg⟩, hma⟩,
      ⟨(s.genotypeKey, 1), hct, by simp⟩⟩, ⟨m, hm, by simp [hmk, ht]⟩⟩
  have hmem2 : (⟨s.gaccid, s.maccid, s.genotypeKey, mi.markerKey,
      mi.symbol⟩ : MiRow) ∈ mi2Rows db pc sp hmi miCtT := by
    simp only [mi2Rows, List.mem_dedup, List.mem_append, List.mem_flatMap,
      List.mem_filterMap]
    exact Or.inr ⟨c, hc, s, hs, mi, hmimem, by simp [hcond]⟩
  have hmem1 : (⟨s.gaccid, s.maccid, s.genotypeKey, s.markerKey,
      s.symbol⟩ : MiRow) ∈ mi2Rows db pc sp hmi miCtT := by
    simp only [mi2Rows, List.mem_dedup, List.mem_append, List.mem_flatMap,
      List.mem_filterMap]
    exact Or.inl ⟨c, hc, s, hs, mi, hmimem, by simp [hcond]⟩
  constructor
  · simp only [rule3InsertMi2, List.mem_flatMap, List.mem_filterMap]
    exact ⟨s, hs, ⟨s.gaccid, s.maccid, s.genotypeKey, mi.markerKey,
      mi.symbol⟩, hmem2, by simp⟩
  · simp only [rule3InsertMi2, List.mem_flatMap, List.mem_filterMap]
    exact ⟨s, hs, ⟨s.gaccid, s.maccid, s.genotypeKey, s.markerKey,
      s.symbol⟩, hmem1, by simp⟩

/-- Scratchpad state for the claim C2 counterexample: genotype 7 with the
transgene-typed traditional marker 490. -/
def exSpC2 : List SpRow := [⟨7, 490, 21, 0, "Tg1", "MGI:G7", "MGI:M490"⟩]

/-- `has_mutation_involves` rows for the claim C2 counterexample: allele 21
involves marker 600. -/
def exHmiC2 : List HmiRow := [⟨"MGI:G7", 7, 21, 600, "Mi1"⟩]

/-- Snapshot for the claim C2 counterexample: marker 490 is a transgene
(type 12), marker 600 an ordinary gene. -/
def exDbC2 : FactDB where
  gag := [⟨7, 21, 490⟩]
  genotypes := [⟨7, 0⟩]
  alleles := [⟨21, 490, 1, 0, "a21"⟩]
  markers := [⟨490, 12, 1, "Tg1"⟩, ⟨600, 1, 1, "Mi1"⟩]
  rels := [⟨1003, 21, 600, 0⟩]
  vannots := [⟨1002, 7, 5000⟩]
  accs := []

/-- Counterexample for claim C2 as stated: on a genotype reaching the
MutationInvolves rule with one transgene-typed traditional marker (490) and
one MutationInvolves marker (600), the transgene clause inserts a keeper row
for the traditional transgene marker 490 itself — the claim that this marker
"is not added to the Keepers relation by this clause" is false. -/
theorem rule3_transgene_clause_counterexample :
    (⟨7, "rule #3 : transgene clause", some 490, "Tg1", "MGI:G7",
        "MGI:M490"⟩ : KeeperRow) ∈
      rule3InsertMi2 exSpC2
        (mi2Rows exDbC2 [(7, 1)] exSpC2 exHmiC2 [(7, 1)]) := by
  decide

/-- Witness for the amended claim C2 at the concrete counterexample input:
both the MutationInvolves marker 600 and the traditional transgene marker 490
are kept. -/
theorem rule3_transgene_clause_keeps_both_witness :
    ((7, 1) ∈ [((7 : Nat), (1 : Nat))] ∧
      (⟨"MGI:G7", 7, 21, 600, "Mi1"⟩ : HmiRow) ∈ exHmiC2 ∧
      (⟨490, 12, 1, "Tg1"⟩ : MarkerRow) ∈ exDbC2.markers) ∧
    (⟨7, "rule #3 : transgene clause", some 600, "Mi1", "MGI:G7",
        "MGI:M490"⟩ : KeeperRow) ∈
      rule3InsertMi2 exSpC2
        (mi2Rows exDbC2 [(7, 1)] exSpC2 exHmiC2 [(7, 1)]) ∧
    (⟨7, "rule #3 : transgene clause", some 490, "Tg1", "MGI:G7",
        "MGI:M490"⟩ : KeeperRow) ∈
      rule3InsertMi2 exSpC2
        (mi2Rows exDbC2 [(7, 1)] exSpC2 exHmiC2 [(7, 1)]) :=
  ⟨⟨by decide, by decide, by decide⟩,
    rule3_transgene_clause_keeps_both exDbC2 [(7, 1)] exSpC2 exHmiC2
      [(7, 1)] (7, 1) ⟨7, 490, 21, 0, "Tg1", "MGI:G7", "MGI:M490"⟩
      ⟨"MGI:G7", 7, 21, 600, "Mi1"⟩ ⟨490, 12, 1, "Tg1"⟩
      (by decide) (by decide) (by decide) (by decide) (by decide)
      (by decide) (by decide) (by decide) (by decide) (by decide)
      (by decide)⟩

/-! ### Provenance-property injection (`_getEvidenceProperties`)

`rollupmarkerlib._getEvidenceProperties` (textually identical in
`rollupallelelib` with the allele key as target key) takes the property rows
of the batch (grouped into a dictionary by evidence key, iterated in sorted
key order) plus the raw evidence rows, and appends one `_SourceAnnot_key`
provenance property per (evidence key, target key) pair.  The
`evidenceMarkerPairs` dictionary is embedded as the `seen` list, the
`byEvidenceKey` dictionary as an association list. -/

/-- A `VOC_Evidence_Property` result row as manipulated by
`_getEvidenceProperties` (with the joined-in target key and annotation
key). -/
structure PropRow where
  targetKey : Nat
  annotKey : Nat
  evidenceKey : Nat
  propertyTermKey : Nat
  stanza : Nat
  sequenceNum : Nat
  value : Int
  createdByKey : Nat
  modifiedByKey : Nat
  creationDate : Nat
  modificationDate : Nat
  deriving DecidableEq, Repr

/-- A raw `VOC_Evidence` result row (the fields `_getEvidenceProperties`
reads). -/
structure EvidRow where
  targetKey : Nat
  annotKey : Nat
  evidenceKey : Nat
  createdByKey : Nat
  modifiedByKey : Nat
  creationDate : Nat
  modificationDate : Nat
  deriving DecidableEq, Repr

/-- The dictionary group for one evidence key (`_makeDictionary` groups rows
by key preserving their order, which for one key is the filtered row list). -/
def groupFor (rows : List PropRow) (ek : Nat) : List PropRow :=
  rows.filter fun r => r.evidenceKey == ek

/-- The `evidenceKeys.sort()` iteration order: the distinct evidence keys of
the property rows, ascending. -/
def evidKeysSorted (rows : List PropRow) : List Nat :=
  ((rows.map PropRow.evidenceKey).dedup).mergeSort (fun a b => a ≤ b)

/-- `max([x['sequenceNum'] for x in rows])` (the group is nonempty whenever
this is evaluated, so the `0` default is never the Python maximum of an empty
list). -/
def maxSeq (rows : List PropRow) : Nat :=
  (rows.map PropRow.sequenceNum).foldl max 0

/-- The inner `for row in rows` loop of the first pass: for each property row
whose (evidence key, target key) pair is unseen, mark it seen, increment the
running sequence number, and append a copy of the row turned into a
`_SourceAnnot_key` provenance property (term `src`, value the annotation
key). -/
def addSourceRows (src ek : Nat) :
    List PropRow → Nat → List (Nat × Nat) → List PropRow →
      Nat × List (Nat × Nat) × List PropRow
  | [], seqNum, seen, acc => (seqNum, seen, acc)
  | row :: rest, seqNum, seen, acc =>
    if (ek, row.targetKey) ∈ seen then
      addSourceRows src ek rest seqNum seen acc
    else
      addSourceRows src ek rest (seqNum + 1)
        ((ek, row.targetKey) :: seen)
        (acc ++
          [{ row with
              propertyTermKey := src,
              sequenceNum := seqNum + 1,
              value := (row.annotKey : Int) }])

/-- The first pass (`for evidenceKey in evidenceKeys`): for each evidence key
in sorted order, compute the maximum existing sequence number, increment it
once, run the inner loop, and store the group extended with the new source
properties. -/
def processEvidKeys (src : Nat) (rows : List PropRow) :
    List Nat → List (Nat × Nat) → List (Nat × List PropRow) →
      List (Nat × List PropRow) × List (Nat × Nat)
  | [], seen, acc => (acc, seen)
  | ek :: rest, seen, acc =>
    let grp := groupFor rows ek
    let seq0 := maxSeq grp
    let seq1 := if seq0 = 0 then 1 else seq0 + 1
    let r := addSourceRows src ek grp seq1 seen []
    processEvidKeys src rows rest r.2.1 (acc ++ [(ek, grp ++ r.2.2)])

/-- The minimal property row synthesized for an evidence record with no prior
properties: stanza 1, sequence number 1, value the annotation key.  (The
Python dictionary carries no `_Annot_key` field; the embedding stores the
annotation key it was built from.) -/
def minimalSourceRow (src : Nat) (row : EvidRow) : PropRow :=
  ⟨row.targetKey, row.annotKey, row.evidenceKey, src, 1, 1,
    (row.annotKey : Int), row.createdByKey, row.modifiedByKey,
    row.creationDate, row.modificationDate⟩

/-- The second pass (`for row in rawEvidence`): for each raw evidence row
whose (evidence key, target key) pair is still unseen, synthesize a minimal
provenance row and add it to the dictionary (as a fresh entry when the
evidence key is absent, appended to the existing entry otherwise). -/
def addMissingSourceRows (src : Nat) :
    List EvidRow → List (Nat × List PropRow) → List (Nat × Nat) →
      List (Nat × List PropRow) × List (Nat × Nat)
  | [], bye, seen => (bye, seen)
  | row :: rest, bye, seen =>
    if (row.evidenceKey, row.targetKey) ∈ seen then
      addMissingSourceRows src rest bye seen
    else
      let r := minimalSourceRow src row
      let bye2 :=
        if bye.any fun e => e.1 == row.evidenceKey then
          bye.map fun e =>
            if e.1 == row.evidenceKey then (e.1, e.2 ++ [r]) else e
        else bye ++ [(row.evidenceKey, [r])]
      addMissingSourceRows src rest bye2
        ((row.evidenceKey, row.targetKey) :: seen)

/-- Embedding of `_getEvidenceProperties` (given the already-fetched property
rows and raw evidence rows): the dictionary from evidence keys to their
property rows including the appended `_SourceAnnot_key` provenance
properties. -/
def getEvidenceProperties (src : Nat) (properties : List PropRow)
    (rawEvidence : List EvidRow) : List (Nat × List PropRow) :=
  let r1 := processEvidKeys src properties (evidKeysSorted properties) [] []
  (addMissingSourceRows src rawEvidence r1.1 r1.2).1

/-- Dictionary lookup in the association list (Python `byEvidenceKey[ek]`,
empty when absent). -/
def lookupGroup (bye : List (Nat × List PropRow)) (ek : Nat) :
    List PropRow :=
  match bye.find? fun e => e.1 == ek with
  | some e => e.2
  | none => []

/-- Number of `_SourceAnnot_key` provenance properties that the dictionary
holds for the (evidence key, target key) pair. -/
def provCount (src : Nat) (bye : List (Nat × List PropRow))
    (ek mk : Nat) : Nat :=
  ((lookupGroup bye ek).filter fun p =>
    p.propertyTermKey == src && p.targetKey == mk).length

theorem provCount_eq_countP (src : Nat) (bye : List (Nat × List PropRow))
    (ek mk : Nat) :
    provCount src bye ek mk = (lookupGroup bye ek).countP
      (fun p => p.propertyTermKey == src && p.targetKey == mk) := by
  simp [provCount, List.countP_eq_length_filter]

theorem lookupGroup_of_no_key {bye : List (Nat × List PropRow)} {ek : Nat}
    (h : ∀ en ∈ bye, (en : Nat × List PropRow).1 ≠ ek) :
    lookupGroup bye ek = [] := by
  induction bye with
  | nil => rfl
  | cons e rest ih =>
    have he : (e.1 == ek) = false := by
      simp [h e (List.mem_cons_self e rest)]
    simp only [lookupGroup, List.find?_cons, he]
    exact ih fun en hen => h en (List.mem_cons_of_mem e hen)

theorem lookupGroup_append_of_no_key {bye : List (Nat × List PropRow)}
    {ek : Nat} {l : List PropRow}
    (h : ∀ en ∈ bye, (en : Nat × List PropRow).1 ≠ ek) :
    lookupGroup (bye ++ [(ek, l)]) ek = l := by
  induction bye with
  | nil => simp [lookupGroup]
  | cons e rest ih =>
    have he : (e.1 == ek) = false := by
      simp [h e (List.mem_cons_self e rest)]
    simp only [List.cons_append, lookupGroup, List.find?_cons, he]
    exact ih fun en hen => h en (List.mem_cons_of_mem e hen)

theorem lookupGroup_append_ne {bye : List (Nat × List PropRow)}
    {ek ek2 : Nat} {l : List PropRow} (h : ek ≠ ek2) :
    lookupGroup (bye ++ [(ek2, l)]) ek = lookupGroup bye ek := by
  induction bye with
  | nil => simp [lookupGroup, Ne.symm h]
  | cons e rest ih =>
    by_cases he : e.1 = ek
    · simp only [List.cons_append, lookupGroup, List.find?_cons,
        show (e.1 == ek) = true by simp [he]]
    · simp only [List.cons_append, lookupGroup, List.find?_cons,
        show (e.1 == ek) = false by simp [he]]
      exact ih

theorem find?_map_keep_key
    (f : Nat × List PropRow → Nat × List PropRow)
    (hf : ∀ e, (f e).1 = e.1) (bye : List (Nat × List PropRow)) (ek : Nat) :
    ((bye.map f).find? fun e => e.1 == ek) =
      (bye.find? fun e => e.1 == ek).map f := by
  induction bye with
  | nil => rfl
  | cons e rest ih =>
    by_cases he : e.1 = ek
    · have h1 : ((f e).1 == ek) = true := by simp [hf e, he]
      have h2 : (e.1 == ek) = true := by simp [he]
      simp only [List.map_cons, List.find?_cons, h1, h2]
      rfl
    · have h1 : ((f e).1 == ek) = false := by simp [hf e, he]
      have h2 : (e.1 == ek) = false := by simp [he]
      simp only [List.map_cons, List.find?_cons, h1, h2]
      exact ih

theorem lookupGroup_map_append_eq {bye : List (Nat × List PropRow)}
    {ek : Nat} {r : PropRow}
    (h : (bye.any fun e => e.1 == ek) = true) :
    lookupGroup (bye.map fun e =>
        if e.1 == ek then (e.1, e.2 ++ [r]) else e) ek =
      lookupGroup bye ek ++ [r] := by
  obtain ⟨w, hw⟩ : ∃ w, (bye.find? fun e => e.1 == ek) = some w := by
    have h2 : ((bye.find? fun e => e.1 == ek)).isSome := by
      rw [List.find?_isSome]
      obtain ⟨x, hx, hpx⟩ := List.any_eq_true.1 h
      exact ⟨x, hx, hpx⟩
    exact Option.isSome_iff_exists.1 h2
  have hkey : (w.1 == ek) = true := (List.find?_eq_some.1 hw).1
  have hmap := find?_map_keep_key
    (fun e => if e.1 == ek then (e.1, e.2 ++ [r]) else e)
    (fun e => by by_cases hc : e.1 = ek <;> simp [hc]) bye ek
  unfold lookupGroup
  rw [hmap, hw]
  have hwe : w.1 = ek := by simpa using hkey
  simp [hwe]

theorem lookupGroup_map_append_ne {bye : List (Nat × List PropRow)}
    {ek ek2 : Nat} {r : PropRow} (h : ek ≠ ek2) :
    lookupGroup (bye.map fun e =>
        if e.1 == ek2 then (e.1, e.2 ++ [r]) else e) ek =
      lookupGroup bye ek := by
  have hmap := find?_map_keep_key
    (fun e => if e.1 == ek2 then (e.1, e.2 ++ [r]) else e)
    (fun e => by by_cases hc : e.1 = ek2 <;> simp [hc]) bye ek
  cases hw : bye.find? fun e => e.1 == ek with
  | none =>
    unfold lookupGroup
    rw [hmap, hw]
    rfl
  | some w =>
    have hkey : (w.1 == ek) = true := (List.find?_eq_some.1 hw).1
    have hne : (w.1 == ek2) = false := by
      have hwe : w.1 = ek := by simpa using hkey
      simp [hwe, h]
    unfold lookupGroup
    rw [hmap, hw]
    have hwne : w.1 ≠ ek2 := by simpa using hne
    simp [hwne]

/-- Specification of the inner loop of the first pass: how `addSourceRows`
extends the seen-pair set and how many provenance properties for each target
key it appends (one per target key not yet seen for this evidence key). -/
theorem addSourceRows_spec (src ek : Nat) :
    ∀ (rows : List PropRow) (seqNum : Nat) (seen : List (Nat × Nat))
      (acc : List PropRow),
    (∀ e m, ((e, m) ∈ (addSourceRows src ek rows seqNum seen acc).2.1 ↔
      (e, m) ∈ seen ∨ (e = ek ∧ m ∈ rows.map PropRow.targetKey))) ∧
    (∀ mk, ((addSourceRows src ek rows seqNum seen acc).2.2.countP
        fun p => p.propertyTermKey == src && p.targetKey == mk) =
      (acc.countP fun p => p.propertyTermKey == src && p.targetKey == mk) +
        (if (ek, mk) ∈ seen then 0
          else if mk ∈ rows.map PropRow.targetKey then 1 else 0)) := by
  intro rows
  induction rows with
  | nil =>
    intro seqNum seen acc
    constructor
    · intro e m
      simp [addSourceRows]
    · intro mk
      simp [addSourceRows]
  | cons row rest ih =>
    intro seqNum seen acc
    by_cases hseen : (ek, row.targetKey) ∈ seen
    · rw [show addSourceRows src ek (row :: rest) seqNum seen acc =
          addSourceRows src ek rest seqNum seen acc by
        simp [addSourceRows, hseen]]
      obtain ⟨ih1, ih2⟩ := ih seqNum seen acc
      constructor
      · intro e m
        rw [ih1 e m]
        constructor
        · rintro (hp | ⟨rfl, hm⟩)
          · exact Or.inl hp
          · refine Or.inr ⟨rfl, ?_⟩
            rw [List.map_cons]
            exact List.mem_cons_of_mem _ hm
        · rintro (hp | ⟨rfl, hm⟩)
          · exact Or.inl hp
          · rw [List.map_cons] at hm
            rcases List.mem_cons.1 hm with rfl | hm2
            · exact Or.inl hseen
            · exact Or.inr ⟨rfl, hm2⟩
      · intro mk
        rw [ih2 mk]
        by_cases hs : (ek, mk) ∈ seen
        · simp [hs]
        · have hne : mk ≠ row.targetKey := fun hEq => hs (hEq ▸ hseen)
          simp [hs, List.map_cons, List.mem_cons, hne]
    · rw [show addSourceRows src ek (row :: rest) seqNum seen acc =
          addSourceRows src ek rest (seqNum + 1)
            ((ek, row.targetKey) :: seen)
            (acc ++
              [{ row with
                  propertyTermKey := src,
                  sequenceNum := seqNum + 1,
                  value := (row.annotKey : Int) }]) by
        simp [addSourceRows, hseen]]
      obtain ⟨ih1, ih2⟩ := ih (seqNum + 1) ((ek, row.targetKey) :: seen)
        (acc ++
          [{ row with
              propertyTermKey := src,
              sequenceNum := seqNum + 1,
              value := (row.annotKey : Int) }])
      constructor
      · intro e m
        rw [ih1 e m]
        constructor
        · rintro (hp | ⟨rfl, hm⟩)
          · rcases List.mem_cons.1 hp with hEq | hp2
            · have h2 : e = ek ∧ m = row.targetKey := by
                simpa using hEq
              obtain ⟨rfl, rfl⟩ := h2
              refine Or.inr ⟨rfl, ?_⟩
              rw [List.map_cons]
              exact List.mem_cons_self _ _
            · exact Or.inl hp2
          · refine Or.inr ⟨rfl, ?_⟩
            rw [List.map_cons]
            exact List.mem_cons_of_mem _ hm
        · rintro (hp | ⟨rfl, hm⟩)
          · exact Or.inl (List.mem_cons_of_mem _ hp)
          · rw [List.map_cons] at hm
            rcases List.mem_cons.1 hm with rfl | hm2
            · exact Or.inl (List.mem_cons_self _ _)
            · exact Or.inr ⟨rfl, hm2⟩
      · intro mk
        rw [ih2 mk, List.countP_append]
        by_cases hmk : mk = row.targetKey
        · have hp1 : (List.countP
              (fun p => p.propertyTermKey == src && p.targetKey == mk)
              [{ row with
                  propertyTermKey := src,
                  sequenceNum := seqNum + 1,
                  value := (row.annotKey : Int) }]) = 1 := by
            simp [List.countP_cons, hmk]
          have hin : (ek, mk) ∈ (ek, row.targetKey) :: seen := by
            rw [hmk]
            exact List.mem_cons_self _ _
          have hnotseen : (ek, mk) ∉ seen := by
            rw [hmk]
            exact hseen
          have hmm : mk ∈ (row :: rest).map PropRow.targetKey := by
            rw [List.map_cons, hmk]
            exact List.mem_cons_self _ _
          rw [hp1, if_pos hin, if_neg hnotseen, if_pos hmm]
        · have hp0 : (List.countP
              (fun p => p.propertyTermKey == src && p.targetKey == mk)
              [{ row with
                  propertyTermKey := src,
                  sequenceNum := seqNum + 1,
                  value := (row.annotKey : Int) }]) = 0 := by
            simp [List.countP_cons, Ne.symm hmk]
          have hiter : ((ek, mk) ∈ (ek, row.targetKey) :: seen) ↔
              (ek, mk) ∈ seen := by
            rw [List.mem_cons]
            constructor
            · rintro (hEq | hp)
              · exact absurd (show mk = row.targetKey by
                  simpa using hEq) hmk
              · exact hp
            · exact Or.inr
          have hmem : (mk ∈ (row :: rest).map PropRow.targetKey) ↔
              mk ∈ rest.map PropRow.targetKey := by
            rw [List.map_cons, List.mem_cons]
            exact or_iff_right hmk
          rw [hp0]
          by_cases hs : (ek, mk) ∈ seen
          · rw [if_pos hs, if_pos (hiter.2 hs)]
          · rw [if_neg hs, if_neg (fun hc => hs (hiter.1 hc))]
            by_cases hm2 : mk ∈ rest.map PropRow.targetKey
            · rw [if_pos hm2, if_pos (hmem.2 hm2)]
            · rw [if_neg hm2, if_neg (fun hc => hm2 (hmem.1 hc))]

/-- Specification of the first pass: after iterating over the (distinct)
evidence keys, the dictionary holds exactly one provenance property per
(evidence key, target key) pair recorded as seen, and the seen pairs are
exactly those whose target key occurs in the evidence key's property
group. -/
theorem processEvidKeys_spec (src : Nat) (rows : List PropRow)
    (hsrc : ∀ p ∈ rows, p.propertyTermKey ≠ src) :
    ∀ (keys : List Nat) (seen : List (Nat × Nat))
      (acc : List (Nat × List PropRow)),
    keys.Nodup →
    (∀ e m, (e, m) ∈ seen → e ∉ keys) →
    (∀ en ∈ acc, (en : Nat × List PropRow).1 ∉ keys) →
    (∀ ek mk, provCount src acc ek mk = if (ek, mk) ∈ seen then 1 else 0) →
    (∀ ek mk,
      provCount src (processEvidKeys src rows keys seen acc).1 ek mk =
        if (ek, mk) ∈ (processEvidKeys src rows keys seen acc).2 then 1
        else 0) ∧
    (∀ e m, (e, m) ∈ (processEvidKeys src rows keys seen acc).2 ↔
      (e, m) ∈ seen ∨
        (e ∈ keys ∧ m ∈ (groupFor rows e).map PropRow.targetKey)) := by
  intro keys
  induction keys with
  | nil =>
    intro seen acc _ _ _ hACC
    refine ⟨hACC, fun e m => ?_⟩
    simp [processEvidKeys]
  | cons ek rest ih =>
    intro seen acc hnodup hseen hacc hACC
    have hek_rest : ek ∉ rest := (List.nodup_cons.1 hnodup).1
    have hrest_nodup : rest.Nodup := (List.nodup_cons.1 hnodup).2
    have hstep : processEvidKeys src rows (ek :: rest) seen acc =
        processEvidKeys src rows rest
          (addSourceRows src ek (groupFor rows ek)
            (if maxSeq (groupFor rows ek) = 0 then 1
              else maxSeq (groupFor rows ek) + 1) seen []).2.1
          (acc ++ [(ek, groupFor rows ek ++
            (addSourceRows src ek (groupFor rows ek)
              (if maxSeq (groupFor rows ek) = 0 then 1
                else maxSeq (groupFor rows ek) + 1) seen []).2.2)]) := rfl
    obtain ⟨hA1, hA2⟩ := addSourceRows_spec src ek (groupFor rows ek)
      (if maxSeq (groupFor rows ek) = 0 then 1
        else maxSeq (groupFor rows ek) + 1) seen []
    have hekseen : ∀ m, (ek, m) ∉ seen := fun m hm =>
      hseen ek m hm (List.mem_cons_self _ _)
    have hcountSeq : ∀ mk,
        ((addSourceRows src ek (groupFor rows ek)
          (if maxSeq (groupFor rows ek) = 0 then 1
            else maxSeq (groupFor rows ek) + 1) seen []).2.2.countP
          fun p => p.propertyTermKey == src && p.targetKey == mk) =
        if mk ∈ (groupFor rows ek).map PropRow.targetKey then 1 else 0 := by
      intro mk
      rw [hA2 mk, List.countP_nil, if_neg (hekseen mk)]
      omega
    have hgrp_nosrc : ∀ p ∈ groupFor rows ek, p.propertyTermKey ≠ src := by
      intro p hp
      exact hsrc p (List.mem_filter.1 hp).1
    have hACC2 : ∀ e m,
        provCount src (acc ++ [(ek, groupFor rows ek ++
          (addSourceRows src ek (groupFor rows ek)
            (if maxSeq (groupFor rows ek) = 0 then 1
              else maxSeq (groupFor rows ek) + 1) seen []).2.2)]) e m =
        if (e, m) ∈ (addSourceRows src ek (groupFor rows ek)
          (if maxSeq (groupFor rows ek) = 0 then 1
            else maxSeq (groupFor rows ek) + 1) seen []).2.1 then 1
        else 0 := by
      intro e m
      by_cases he : e = ek
      · subst he
        have hkeys : ∀ en ∈ acc, (en : Nat × List PropRow).1 ≠ e :=
          fun en hen => fun hc =>
            hacc en hen (hc ▸ List.mem_cons_self _ _)
        rw [provCount_eq_countP, lookupGroup_append_of_no_key hkeys,
          List.countP_append]
        have hzero : ((groupFor rows e).countP
            fun p => p.propertyTermKey == src && p.targetKey == m) = 0 := by
          rw [List.countP_eq_zero]
          intro p hp
          simp only [Bool.and_eq_true, beq_iff_eq, not_and]
          intro hterm
          exact absurd hterm (hgrp_nosrc p hp)
        rw [hzero, hcountSeq m]
        have hiff : ((e, m) ∈ (addSourceRows src e (groupFor rows e)
            (if maxSeq (groupFor rows e) = 0 then 1
              else maxSeq (groupFor rows e) + 1) seen []).2.1) ↔
            m ∈ (groupFor rows e).map PropRow.targetKey := by
          rw [hA1 e m]
          constructor
          · rintro (hp | ⟨_, hm⟩)
            · exact absurd hp (hekseen m)
            · exact hm
          · intro hm
            exact Or.inr ⟨rfl, hm⟩
        rw [if_congr hiff rfl rfl]
        omega
      · rw [provCount_eq_countP, lookupGroup_append_ne he,
          ← provCount_eq_countP, hACC e m]
        have : ((e, m) ∈ (addSourceRows src ek (groupFor rows ek)
            (if maxSeq (groupFor rows ek) = 0 then 1
              else maxSeq (groupFor rows ek) + 1) seen []).2.1) ↔
            (e, m) ∈ seen := by
          rw [hA1 e m]
          constructor
          · rintro (hp | ⟨hc, _⟩)
            · exact hp
            · exact absurd hc he
          · exact Or.inl
        rw [if_congr this rfl rfl]
    have hseen2 : ∀ e m,
        (e, m) ∈ (addSourceRows src ek (groupFor rows ek)
          (if maxSeq (groupFor rows ek) = 0 then 1
            else maxSeq (groupFor rows ek) + 1) seen []).2.1 →
        e ∉ rest := by
      intro e m hm
      rw [hA1 e m] at hm
      rcases hm with hp | ⟨rfl, _⟩
      · intro hc
        exact hseen e m hp (List.mem_cons_of_mem _ hc)
      · exact hek_rest
    have hacc2 : ∀ en ∈ (acc ++ [(ek, groupFor rows ek ++
        (addSourceRows src ek (groupFor rows ek)
          (if maxSeq (groupFor rows ek) = 0 then 1
            else maxSeq (groupFor rows ek) + 1) seen []).2.2)]),
        (en : Nat × List PropRow).1 ∉ rest := by
      intro en hen
      rcases List.mem_append.1 hen with hen | hen
      · intro hc
        exact hacc en hen (List.mem_cons_of_mem _ hc)
      · rcases List.mem_singleton.1 hen with rfl
        exact hek_rest
    obtain ⟨ihA, ihB⟩ := ih
      (addSourceRows src ek (groupFor rows ek)
        (if maxSeq (groupFor rows ek) = 0 then 1
          else maxSeq (groupFor rows ek) + 1) seen []).2.1
      (acc ++ [(ek, groupFor rows ek ++
        (addSourceRows src ek (groupFor rows ek)
          (if maxSeq (groupFor rows ek) = 0 then 1
            else maxSeq (groupFor rows ek) + 1) seen []).2.2)])
      hrest_nodup (fun e m hm => hseen2 e m hm) hacc2 hACC2
    rw [hstep]
    refine ⟨ihA, fun e m => ?_⟩
    rw [ihB e m, hA1 e m]
    constructor
    · rintro ((hp | ⟨rfl, hm⟩) | ⟨hr, hm⟩)
      · exact Or.inl hp
      · exact Or.inr ⟨List.mem_cons_self _ _, hm⟩
      · exact Or.inr ⟨List.mem_cons_of_mem _ hr, hm⟩
    · rintro (hp | ⟨he, hm⟩)
      · exact Or.inl (Or.inl hp)
      · rcases List.mem_cons.1 he with rfl | hr
        · exact Or.inl (Or.inr ⟨rfl, hm⟩)
        · exact Or.inr ⟨hr, hm⟩

/-- Specification of the second pass: it preserves the one-provenance-per-
seen-pair invariant, and afterwards the seen pairs are the old ones plus every
(evidence key, target key) pair present in the raw evidence rows. -/
theorem addMissingSourceRows_spec (src : Nat) :
    ∀ (raws : List EvidRow) (bye : List (Nat × List PropRow))
      (seen : List (Nat × Nat)),
    (∀ ek mk, provCount src bye ek mk = if (ek, mk) ∈ seen then 1 else 0) →
    (∀ ek mk,
      provCount src (addMissingSourceRows src raws bye seen).1 ek mk =
        if (ek, mk) ∈ (addMissingSourceRows src raws bye seen).2 then 1
        else 0) ∧
    (∀ e m, (e, m) ∈ (addMissingSourceRows src raws bye seen).2 ↔
      (e, m) ∈ seen ∨ ∃ r ∈ raws, r.evidenceKey = e ∧ r.targetKey = m) := by
  intro raws
  induction raws with
  | nil =>
    intro bye seen hInv
    refine ⟨hInv, fun e m => ?_⟩
    simp [addMissingSourceRows]
  | cons row rest ih =>
    intro bye seen hInv
    by_cases hseen : (row.evidenceKey, row.targetKey) ∈ seen
    · rw [show addMissingSourceRows src (row :: rest) bye seen =
          addMissingSourceRows src rest bye seen by
        simp [addMissingSourceRows, hseen]]
      obtain ⟨ihA, ihB⟩ := ih bye seen hInv
      refine ⟨ihA, fun e m => ?_⟩
      rw [ihB e m]
      constructor
      · rintro (hp | ⟨r, hr, he, hm⟩)
        · exact Or.inl hp
        · exact Or.inr ⟨r, List.mem_cons_of_mem _ hr, he, hm⟩
      · rintro (hp | ⟨r, hr, he, hm⟩)
        · exact Or.inl hp
        · rcases List.mem_cons.1 hr with rfl | hr2
          · exact Or.inl (he ▸ hm ▸ hseen)
          · exact Or.inr ⟨r, hr2, he, hm⟩
    · have hstep : addMissingSourceRows src (row :: rest) bye seen =
          addMissingSourceRows src rest
            (if bye.any fun e => e.1 == row.evidenceKey then
              bye.map fun e =>
                if e.1 == row.evidenceKey then
                  (e.1, e.2 ++ [minimalSourceRow src row])
                else e
             else bye ++ [(row.evidenceKey, [minimalSourceRow src row])])
            ((row.evidenceKey, row.targetKey) :: seen) := by
        simp only [addMissingSourceRows, hseen, if_neg, ite_false]
      have hInv2 : ∀ ek mk,
          provCount src
            (if bye.any fun e => e.1 == row.evidenceKey then
              bye.map fun e =>
                if e.1 == row.evidenceKey then
                  (e.1, e.2 ++ [minimalSourceRow src row])
                else e
             else bye ++ [(row.evidenceKey, [minimalSourceRow src row])])
            ek mk =
          if (ek, mk) ∈ (row.evidenceKey, row.targetKey) :: seen then 1
          else 0 := by
        intro ek mk
        by_cases hany : (bye.any fun e => e.1 == row.evidenceKey) = true
        · rw [if_pos hany]
          by_cases hek : ek = row.evidenceKey
          · subst hek
            rw [provCount_eq_countP, lookupGroup_map_append_eq hany,
              List.countP_append, ← provCount_eq_countP,
              hInv row.evidenceKey mk]
            by_cases hmk : mk = row.targetKey
            · have h1 : (List.countP
                  (fun p => p.propertyTermKey == src && p.targetKey == mk)
                  [minimalSourceRow src row]) = 1 := by
                simp [List.countP_cons, minimalSourceRow, hmk]
              have hnot : (row.evidenceKey, mk) ∉ seen := by
                rw [hmk]
                exact hseen
              have hin : (row.evidenceKey, mk) ∈
                  (row.evidenceKey, row.targetKey) :: seen := by
                rw [hmk]
                exact List.mem_cons_self _ _
              rw [h1, if_neg hnot, if_pos hin]
            · have h0 : (List.countP
                  (fun p => p.propertyTermKey == src && p.targetKey == mk)
                  [minimalSourceRow src row]) = 0 := by
                simp [List.countP_cons, minimalSourceRow, Ne.symm hmk]
              have hiter : ((row.evidenceKey, mk) ∈
                  (row.evidenceKey, row.targetKey) :: seen) ↔
                  (row.evidenceKey, mk) ∈ seen := by
                rw [List.mem_cons]
                constructor
                · rintro (hEq | hp)
                  · exact absurd (show mk = row.targetKey by
                      simpa using hEq) hmk
                  · exact hp
                · exact Or.inr
              rw [h0, if_congr hiter rfl rfl]
              omega
          · rw [provCount_eq_countP, lookupGroup_map_append_ne hek,
              ← provCount_eq_countP, hInv ek mk]
            have hiter : ((ek, mk) ∈
                (row.evidenceKey, row.targetKey) :: seen) ↔
                (ek, mk) ∈ seen := by
              rw [List.mem_cons]
              constructor
              · rintro (hEq | hp)
                · exact absurd (show ek = row.evidenceKey by
                    simpa using congrArg Prod.fst hEq) hek
                · exact hp
              · exact Or.inr
            rw [if_congr hiter rfl rfl]
        · rw [if_neg hany]
          have hnokey : ∀ en ∈ bye,
              (en : Nat × List PropRow).1 ≠ row.evidenceKey := by
            intro en hen hc
            apply hany
            rw [List.any_eq_true]
            exact ⟨en, hen, by simp [hc]⟩
          by_cases hek : ek = row.evidenceKey
          · subst hek
            rw [provCount_eq_countP, lookupGroup_append_of_no_key hnokey]
            have hbase : provCount src bye row.evidenceKey mk = 0 := by
              rw [provCount_eq_countP, lookupGroup_of_no_key hnokey]
              rfl
            have hnotseen : (row.evidenceKey, mk) ∉ seen := by
              intro hc
              have hIv := hInv row.evidenceKey mk
              rw [hbase, if_pos hc] at hIv
              exact Nat.zero_ne_one hIv
            by_cases hmk : mk = row.targetKey
            · have h1 : (List.countP
                  (fun p => p.propertyTermKey == src && p.targetKey == mk)
                  [minimalSourceRow src row]) = 1 := by
                simp [List.countP_cons, minimalSourceRow, hmk]
              have hin : (row.evidenceKey, mk) ∈
                  (row.evidenceKey, row.targetKey) :: seen := by
                rw [hmk]
                exact List.mem_cons_self _ _
              rw [h1, if_pos hin]
            · have h0 : (List.countP
                  (fun p => p.propertyTermKey == src && p.targetKey == mk)
                  [minimalSourceRow src row]) = 0 := by
                simp [List.countP_cons, minimalSourceRow, Ne.symm hmk]
              have hiter : ((row.evidenceKey, mk) ∈
                  (row.evidenceKey, row.targetKey) :: seen) ↔
                  (row.evidenceKey, mk) ∈ seen := by
                rw [List.mem_cons]
                constructor
                · rintro (hEq | hp)
                  · exact absurd (show mk = row.targetKey by
                      simpa using hEq) hmk
                  · exact hp
                · exact Or.inr
              rw [h0, if_congr hiter rfl rfl, if_neg hnotseen]
          · rw [provCount_eq_countP, lookupGroup_append_ne hek,
              ← provCount_eq_countP, hInv ek mk]
            have hiter : ((ek, mk) ∈
                (row.evidenceKey, row.targetKey) :: seen) ↔
                (ek, mk) ∈ seen := by
              rw [List.mem_cons]
              constructor
              · rintro (hEq | hp)
                · exact absurd (show ek = row.evidenceKey by
                    simpa using congrArg Prod.fst hEq) hek
                · exact hp
              · exact Or.inr
            rw [if_congr hiter rfl rfl]
      obtain ⟨ihA, ihB⟩ := ih
        (if bye.any fun e => e.1 == row.evidenceKey then
          bye.map fun e =>
            if e.1 == row.evidenceKey then
              (e.1, e.2 ++ [minimalSourceRow src row])
            else e
         else bye ++ [(row.evidenceKey, [minimalSourceRow src row])])
        ((row.evidenceKey, row.targetKey) :: seen) hInv2
      rw [hstep]
      refine ⟨ihA, fun e m => ?_⟩
      rw [ihB e m]
      constructor
      · rintro (hp | ⟨r, hr, he, hm⟩)
        · rcases List.mem_cons.1 hp with hEq | hp2
          · refine Or.inr ⟨row, List.mem_cons_self _ _, ?_, ?_⟩
            · exact (show e = row.evidenceKey by
                simpa using congrArg Prod.fst hEq).symm
            · exact (show m = row.targetKey by
                simpa using congrArg Prod.snd hEq).symm
          · exact Or.inl hp2
        · exact Or.inr ⟨r, List.mem_cons_of_mem _ hr, he, hm⟩
      · rintro (hp | ⟨r, hr, he, hm⟩)
        · exact Or.inl (List.mem_cons_of_mem _ hp)
        · rcases List.mem_cons.1 hr with rfl | hr2
          · refine Or.inl ?_
            rw [← he, ← hm]
            exact List.mem_cons_self _ _
          · exact Or.inr ⟨r, hr2, he, hm⟩

/-- Claim C1: provenance uniqueness in `_getEvidenceProperties`.  Given that
the fetched property rows are for source annotations (none already carries the
`_SourceAnnot_key` property term, as the code's comment states), the returned
dictionary never holds two provenance properties for the same (evidence key,
target key) pair — even when repeated Keepers rows put the same evidence or
property row in the inputs several times — and holds exactly one for every
pair present in the property rows or the raw evidence rows, so every derived
annotation materialized from such a pair carries exactly one provenance
property. -/
theorem getEvidenceProperties_provenance_unique (src : Nat)
    (properties : List PropRow) (rawEvidence : List EvidRow)
    (hsrc : ∀ p ∈ properties, p.propertyTermKey ≠ src) (ek mk : Nat) :
    provCount src (getEvidenceProperties src properties rawEvidence) ek mk
      ≤ 1 ∧
    (((∃ p ∈ properties, p.evidenceKey = ek ∧ p.targetKey = mk) ∨
      (∃ r ∈ rawEvidence, r.evidenceKey = ek ∧ r.targetKey = mk)) →
      provCount src (getEvidenceProperties src properties rawEvidence) ek mk
        = 1) := by
  have hnodup : (evidKeysSorted properties).Nodup := by
    have hperm := List.mergeSort_perm
      ((properties.map PropRow.evidenceKey).dedup) (fun a b => a ≤ b)
    exact hperm.nodup_iff.2 (List.nodup_dedup _)
  obtain ⟨h1A, h1B⟩ := processEvidKeys_spec src properties hsrc
    (evidKeysSorted properties) [] [] hnodup
    (fun e m h => absurd h (List.not_mem_nil _))
    (fun en h => absurd h (List.not_mem_nil _))
    (fun a b => by simp [provCount, lookupGroup])
  obtain ⟨h2A, h2B⟩ := addMissingSourceRows_spec src rawEvidence
    (processEvidKeys src properties (evidKeysSorted properties) [] []).1
    (processEvidKeys src properties (evidKeysSorted properties) [] []).2
    h1A
  have hmain : getEvidenceProperties src properties rawEvidence =
      (addMissingSourceRows src rawEvidence
        (processEvidKeys src properties
          (evidKeysSorted properties) [] []).1
        (processEvidKeys src properties
          (evidKeysSorted properties) [] []).2).1 := rfl
  rw [hmain]
  constructor
  · rw [h2A ek mk]
    split <;> omega
  · intro horigin
    have hin : (ek, mk) ∈ (addMissingSourceRows src rawEvidence
        (processEvidKeys src properties
          (evidKeysSorted properties) [] []).1
        (processEvidKeys src properties
          (evidKeysSorted properties) [] []).2).2 := by
      rw [h2B ek mk]
      rcases horigin with ⟨p, hp, hpe, hpt⟩ | ⟨r, hr, hre, hrt⟩
      · left
        rw [h1B ek mk]
        refine Or.inr ⟨?_, ?_⟩
        · have hd : ek ∈ (properties.map PropRow.evidenceKey).dedup :=
            List.mem_dedup.2 (List.mem_map.2 ⟨p, hp, hpe⟩)
          exact ((List.mergeSort_perm _ _).mem_iff).2 hd
        · exact List.mem_map.2
            ⟨p, List.mem_filter.2 ⟨hp, by simp [hpe]⟩, hpt⟩
      · exact Or.inr ⟨r, hr, hre, hrt⟩
    rw [h2A ek mk, if_pos hin]

/-- Witness for claim C1 at a concrete input: one property row and one raw
evidence row for evidence key 1 and target key 5 produce exactly one
provenance property for the pair. -/
theorem getEvidenceProperties_provenance_unique_witness :
    (∀ p ∈ ([⟨5, 77, 1, 9, 1, 3, 0, 0, 0, 0, 0⟩] : List PropRow),
      p.propertyTermKey ≠ 13576001) ∧
    (provCount 13576001 (getEvidenceProperties 13576001
        [⟨5, 77, 1, 9, 1, 3, 0, 0, 0, 0, 0⟩] [⟨5, 77, 1, 0, 0, 0, 0⟩]) 1 5
      ≤ 1 ∧
    (((∃ p ∈ ([⟨5, 77, 1, 9, 1, 3, 0, 0, 0, 0, 0⟩] : List PropRow),
        p.evidenceKey = 1 ∧ p.targetKey = 5) ∨
      (∃ r ∈ ([⟨5, 77, 1, 0, 0, 0, 0⟩] : List EvidRow),
        r.evidenceKey = 1 ∧ r.targetKey = 5)) →
      provCount 13576001 (getEvidenceProperties 13576001
        [⟨5, 77, 1, 9, 1, 3, 0, 0, 0, 0, 0⟩] [⟨5, 77, 1, 0, 0, 0, 0⟩]) 1 5
        = 1)) :=
  ⟨by decide, getEvidenceProperties_provenance_unique 13576001
    [⟨5, 77, 1, 9, 1, 3, 0, 0, 0, 0, 0⟩] [⟨5, 77, 1, 0, 0, 0, 0⟩]
    (by decide) 1 5⟩

theorem lookupGroup_append_cons {l1 l2 : List (Nat × List PropRow)}
    {ek : Nat} {l : List PropRow}
    (h : ∀ en ∈ l1, (en : Nat × List PropRow).1 ≠ ek) :
    lookupGroup (l1 ++ (ek, l) :: l2) ek = l := by
  induction l1 with
  | nil => simp [lookupGroup]
  | cons e rest ih =>
    have he : (e.1 == ek) = false := by
      simp [h e (List.mem_cons_self e rest)]
    simp only [List.cons_append, lookupGroup, List.find?_cons, he]
    exact ih fun en hen => h en (List.mem_cons_of_mem e hen)

/-- When every row's pair is already seen, the inner loop is a no-op. -/
theorem addSourceRows_all_seen (src ek : Nat) :
    ∀ (rows : List PropRow) (seqNum : Nat) (seen : List (Nat × Nat))
      (acc : List PropRow),
    (∀ r ∈ rows, (ek, r.targetKey) ∈ seen) →
    addSourceRows src ek rows seqNum seen acc = (seqNum, seen, acc) := by
  intro rows
  induction rows with
  | nil =>
    intro seqNum seen acc _
    rfl
  | cons row rest ih =>
    intro seqNum seen acc hall
    have hrow := hall row (List.mem_cons_self _ _)
    rw [show addSourceRows src ek (row :: rest) seqNum seen acc =
        addSourceRows src ek rest seqNum seen acc by
      simp [addSourceRows, hrow]]
    exact ih seqNum seen acc fun r hr => hall r (List.mem_cons_of_mem _ hr)

/-- When all rows share one target key and the pair is unseen, the inner loop
appends exactly one provenance property, built from the first row, with the
incremented sequence number. -/
theorem addSourceRows_single (src ek mk : Nat) (row : PropRow)
    (rest : List PropRow) (seqNum : Nat) (seen : List (Nat × Nat))
    (acc : List PropRow) (hrow : row.targetKey = mk)
    (hrest : ∀ r ∈ rest, r.targetKey = mk)
    (hunseen : (ek, mk) ∉ seen) :
    addSourceRows src ek (row :: rest) seqNum seen acc =
      (seqNum + 1, (ek, mk) :: seen,
        acc ++ [{ row with
            propertyTermKey := src,
            sequenceNum := seqNum + 1,
            value := (row.annotKey : Int) }]) := by
  have hguard : (ek, row.targetKey) ∉ seen := by
    rw [hrow]
    exact hunseen
  rw [show addSourceRows src ek (row :: rest) seqNum seen acc =
      addSourceRows src ek rest (seqNum + 1)
        ((ek, row.targetKey) :: seen)
        (acc ++ [{ row with
            propertyTermKey := src,
            sequenceNum := seqNum + 1,
            value := (row.annotKey : Int) }]) by
    simp [addSourceRows, hguard]]
  rw [addSourceRows_all_seen src ek rest (seqNum + 1)
    ((ek, row.targetKey) :: seen) _
    (fun r hr => by
      rw [hrest r hr, ← hrow]
      exact List.mem_cons_self _ _)]
  rw [hrow]

/-- The first pass only appends entries, and every appended entry's key is one
of the iterated evidence keys. -/
theorem processEvidKeys_shape (src : Nat) (rows : List PropRow) :
    ∀ (keys : List Nat) (seen : List (Nat × Nat))
      (acc : List (Nat × List PropRow)),
    ∃ extra, (processEvidKeys src rows keys seen acc).1 = acc ++ extra ∧
      ∀ en ∈ extra, (en : Nat × List PropRow).1 ∈ keys := by
  intro keys
  induction keys with
  | nil =>
    intro seen acc
    exact ⟨[], by simp [processEvidKeys], fun en h =>
      absurd h (List.not_mem_nil _)⟩
  | cons ek rest ih =>
    intro seen acc
    obtain ⟨extra, hEq, hkeys⟩ := ih
      (addSourceRows src ek (groupFor rows ek)
        (if maxSeq (groupFor rows ek) = 0 then 1
          else maxSeq (groupFor rows ek) + 1) seen []).2.1
      (acc ++ [(ek, groupFor rows ek ++
        (addSourceRows src ek (groupFor rows ek)
          (if maxSeq (groupFor rows ek) = 0 then 1
            else maxSeq (groupFor rows ek) + 1) seen []).2.2)])
    refine ⟨(ek, groupFor rows ek ++
      (addSourceRows src ek (groupFor rows ek)
        (if maxSeq (groupFor rows ek) = 0 then 1
          else maxSeq (groupFor rows ek) + 1) seen []).2.2) :: extra,
      ?_, ?_⟩
    · rw [show processEvidKeys src rows (ek :: rest) seen acc =
        processEvidKeys src rows rest
          (addSourceRows src ek (groupFor rows ek)
            (if maxSeq (groupFor rows ek) = 0 then 1
              else maxSeq (groupFor rows ek) + 1) seen []).2.1
          (acc ++ [(ek, groupFor rows ek ++
            (addSourceRows src ek (groupFor rows ek)
              (if maxSeq (groupFor rows ek) = 0 then 1
                else maxSeq (groupFor rows ek) + 1) seen []).2.2)])
        from rfl]
      rw [hEq]
      simp
    · intro en hen
      rcases List.mem_cons.1 hen with rfl | hen2
      · exact List.mem_cons_self _ _
      · exact List.mem_cons_of_mem _ (hkeys en hen2)

/-- The first pass never touches the dictionary entry of a key that is not
among the remaining iterated keys. -/
theorem processEvidKeys_lookup_preserved (src : Nat) (rows : List PropRow) :
    ∀ (keys : List Nat) (seen : List (Nat × Nat))
      (acc : List (Nat × List PropRow)) (ek : Nat),
    ek ∉ keys →
    lookupGroup (processEvidKeys src rows keys seen acc).1 ek =
      lookupGroup acc ek := by
  intro keys
  induction keys with
  | nil =>
    intro seen acc ek _
    rfl
  | cons k rest ih =>
    intro seen acc ek hek
    have hk : ek ≠ k := fun hc => hek (hc ▸ List.mem_cons_self _ _)
    have hrest : ek ∉ rest := fun hc => hek (List.mem_cons_of_mem _ hc)
    rw [show processEvidKeys src rows (k :: rest) seen acc =
        processEvidKeys src rows rest
          (addSourceRows src k (groupFor rows k)
            (if maxSeq (groupFor rows k) = 0 then 1
              else maxSeq (groupFor rows k) + 1) seen []).2.1
          (acc ++ [(k, groupFor rows k ++
            (addSourceRows src k (groupFor rows k)
              (if maxSeq (groupFor rows k) = 0 then 1
                else maxSeq (groupFor rows k) + 1) seen []).2.2)])
      from rfl]
    rw [ih _ _ ek hrest, lookupGroup_append_ne hk]

/-- Content of the dictionary entry for an evidence key whose property rows
all share one target key: the group itself plus exactly one provenance row,
copied from the first row of the group, with sequence number one past the
incremented maximum. -/
theorem processEvidKeys_lookup_single (src : Nat) (rows : List PropRow) :
    ∀ (keys : List Nat) (seen : List (Nat × Nat))
      (acc : List (Nat × List PropRow)),
    keys.Nodup →
    (∀ e m, (e, m) ∈ seen → e ∉ keys) →
    (∀ en ∈ acc, (en : Nat × List PropRow).1 ∉ keys) →
    ∀ ek mk, ek ∈ keys →
    ∀ (hne : groupFor rows ek ≠ []),
    (∀ r ∈ groupFor rows ek, r.targetKey = mk) →
    lookupGroup (processEvidKeys src rows keys seen acc).1 ek =
      groupFor rows ek ++
        [{ (groupFor rows ek).head hne with
            propertyTermKey := src,
            sequenceNum := (if maxSeq (groupFor rows ek) = 0 then 1
              else maxSeq (groupFor rows ek) + 1) + 1,
            value := (((groupFor rows ek).head hne).annotKey : Int) }] := by
  intro keys
  induction keys with
  | nil =>
    intro seen acc _ _ _ ek mk hek
    exact absurd hek (List.not_mem_nil _)
  | cons k rest ih =>
    intro seen acc hnodup hseen hacc ek mk hek hne hall
    have hstep : processEvidKeys src rows (k :: rest) seen acc =
        processEvidKeys src rows rest
          (addSourceRows src k (groupFor rows k)
            (if maxSeq (groupFor rows k) = 0 then 1
              else maxSeq (groupFor rows k) + 1) seen []).2.1
          (acc ++ [(k, groupFor rows k ++
            (addSourceRows src k (groupFor rows k)
              (if maxSeq (groupFor rows k) = 0 then 1
                else maxSeq (groupFor rows k) + 1) seen []).2.2)]) := rfl
    obtain ⟨hA1, _hA2⟩ := addSourceRows_spec src k (groupFor rows k)
      (if maxSeq (groupFor rows k) = 0 then 1
        else maxSeq (groupFor rows k) + 1) seen []
    rcases List.mem_cons.1 hek with rfl | hek2
    · obtain ⟨row, tail, hgrp⟩ : ∃ row tail,
          groupFor rows ek = row :: tail := by
        cases hgl : groupFor rows ek with
        | nil => exact absurd hgl hne
        | cons a b => exact ⟨a, b, rfl⟩
      have hunseen : (ek, mk) ∉ seen := fun hc =>
        hseen ek mk hc (List.mem_cons_self _ _)
      have hsingle := addSourceRows_single src ek mk row tail
        (if maxSeq (groupFor rows ek) = 0 then 1
          else maxSeq (groupFor rows ek) + 1) seen []
        (hall row (by rw [hgrp]; exact List.mem_cons_self _ _))
        (fun r hr => hall r (by rw [hgrp]; exact List.mem_cons_of_mem _ hr))
        hunseen
      have hent : ∀ en ∈ (acc : List (Nat × List PropRow)),
          (en : Nat × List PropRow).1 ≠ ek := fun en hen hc =>
        hacc en hen (hc ▸ List.mem_cons_self _ _)
      rw [hstep, processEvidKeys_lookup_preserved src rows rest _ _ ek
        (List.nodup_cons.1 hnodup).1,
        lookupGroup_append_of_no_key hent]
      have hh : (groupFor rows ek).head hne = row := by
        simp only [hgrp, List.head_cons]
      rw [hh]
      rw [hgrp] at hsingle ⊢
      rw [hsingle]
      rfl
    · have hk_ne : ek ≠ k := by
        intro hc
        exact (List.nodup_cons.1 hnodup).1 (hc ▸ hek2)
      rw [hstep]
      refine ih
        (addSourceRows src k (groupFor rows k)
          (if maxSeq (groupFor rows k) = 0 then 1
            else maxSeq (groupFor rows k) + 1) seen []).2.1
        (acc ++ [(k, groupFor rows k ++
          (addSourceRows src k (groupFor rows k)
            (if maxSeq (groupFor rows k) = 0 then 1
              else maxSeq (groupFor rows k) + 1) seen []).2.2)])
        (List.nodup_cons.1 hnodup).2 ?_ ?_ ek mk hek2 hne hall
      · intro e m hm hc
        rw [hA1 e m] at hm
        rcases hm with hp | ⟨rfl, _⟩
        · exact hseen e m hp (List.mem_cons_of_mem _ hc)
        · exact (List.nodup_cons.1 hnodup).1 hc
      · intro en hen hc
        rcases List.mem_append.1 hen with hen2 | hen2
        · exact hacc en hen2 (List.mem_cons_of_mem _ hc)
        · rcases List.mem_singleton.1 hen2 with rfl
          exact (List.nodup_cons.1 hnodup).1 hc

/-- The seen-pair set built by the first pass: afterwards the seen pairs are
the initial ones plus every (evidence key, target key) pair whose key is among
the iterated keys and whose target occurs in that key's property group. -/
theorem processEvidKeys_seen (src : Nat) (rows : List PropRow) :
    ∀ (keys : List Nat) (seen : List (Nat × Nat))
      (acc : List (Nat × List PropRow)) (e m : Nat),
    ((e, m) ∈ (processEvidKeys src rows keys seen acc).2 ↔
      (e, m) ∈ seen ∨
        (e ∈ keys ∧ m ∈ (groupFor rows e).map PropRow.targetKey)) := by
  intro keys
  induction keys with
  | nil =>
    intro seen acc e m
    simp [processEvidKeys]
  | cons k rest ih =>
    intro seen acc e m
    rw [show processEvidKeys src rows (k :: rest) seen acc =
        processEvidKeys src rows rest
          (addSourceRows src k (groupFor rows k)
            (if maxSeq (groupFor rows k) = 0 then 1
              else maxSeq (groupFor rows k) + 1) seen []).2.1
          (acc ++ [(k, groupFor rows k ++
            (addSourceRows src k (groupFor rows k)
              (if maxSeq (groupFor rows k) = 0 then 1
                else maxSeq (groupFor rows k) + 1) seen []).2.2)])
      from rfl]
    rw [ih _ _ e m,
      (addSourceRows_spec src k (groupFor rows k)
        (if maxSeq (groupFor rows k) = 0 then 1
          else maxSeq (groupFor rows k) + 1) seen []).1 e m]
    constructor
    · rintro ((hs | ⟨rfl, hm⟩) | ⟨her, hm⟩)
      · exact Or.inl hs
      · exact Or.inr ⟨List.mem_cons_self _ _, hm⟩
      · exact Or.inr ⟨List.mem_cons_of_mem _ her, hm⟩
    · rintro (hs | ⟨hek, hm⟩)
      · exact Or.inl (Or.inl hs)
      · rcases List.mem_cons.1 hek with rfl | h2
        · exact Or.inl (Or.inr ⟨rfl, hm⟩)
        · exact Or.inr ⟨h2, hm⟩

/-- The second pass leaves the dictionary entry of an evidence key unchanged
when every raw evidence row for that key has its pair already seen. -/
theorem addMissingSourceRows_lookup_preserved (src : Nat) :
    ∀ (raws : List EvidRow) (bye : List (Nat × List PropRow))
      (seen : List (Nat × Nat)) (ek : Nat),
    (∀ r ∈ raws, r.evidenceKey = ek → (ek, r.targetKey) ∈ seen) →
    lookupGroup (addMissingSourceRows src raws bye seen).1 ek =
      lookupGroup bye ek := by
  intro raws
  induction raws with
  | nil =>
    intro bye seen ek _
    rfl
  | cons row rest ih =>
    intro bye seen ek hall
    by_cases hseen : (row.evidenceKey, row.targetKey) ∈ seen
    · rw [show addMissingSourceRows src (row :: rest) bye seen =
          addMissingSourceRows src rest bye seen by
        simp [addMissingSourceRows, hseen]]
      exact ih bye seen ek fun r hr he =>
        hall r (List.mem_cons_of_mem _ hr) he
    · have hne : row.evidenceKey ≠ ek := by
        intro hc
        apply hseen
        rw [hc]
        exact hall row (List.mem_cons_self _ _) hc
      have hstep : addMissingSourceRows src (row :: rest) bye seen =
          addMissingSourceRows src rest
            (if bye.any fun e => e.1 == row.evidenceKey then
              bye.map fun e =>
                if e.1 == row.evidenceKey then
                  (e.1, e.2 ++ [minimalSourceRow src row])
                else e
             else bye ++ [(row.evidenceKey, [minimalSourceRow src row])])
            ((row.evidenceKey, row.targetKey) :: seen) := by
        simp only [addMissingSourceRows, hseen, if_neg, ite_false]
      rw [hstep]
      rw [ih _ _ ek fun r hr he =>
        List.mem_cons_of_mem _ (hall r (List.mem_cons_of_mem _ hr) he)]
      by_cases hany : (bye.any fun e => e.1 == row.evidenceKey) = true
      · rw [if_pos hany]
        exact lookupGroup_map_append_ne (Ne.symm hne)
      · rw [if_neg hany]
        exact lookupGroup_append_ne (Ne.symm hne)

/-- The second pass synthesizes the minimal property row: for an evidence key
with no dictionary entry and no seen pair, the first raw evidence row for that
key creates the entry holding exactly the minimal source row. -/
theorem addMissingSourceRows_lookup_create (src : Nat) :
    ∀ (raws : List EvidRow) (bye : List (Nat × List PropRow))
      (seen : List (Nat × Nat)) (ek : Nat) (r0 : EvidRow),
    (∀ en ∈ bye, (en : Nat × List PropRow).1 ≠ ek) →
    (∀ e m, (e, m) ∈ seen → e ≠ ek) →
    (raws.find? fun r => r.evidenceKey == ek) = some r0 →
    (∀ r ∈ raws, r.evidenceKey = ek → r.targetKey = r0.targetKey) →
    lookupGroup (addMissingSourceRows src raws bye seen).1 ek =
      [minimalSourceRow src r0] := by
  intro raws
  induction raws with
  | nil =>
    intro bye seen ek r0 _ _ hfind _
    exact absurd hfind (by simp)
  | cons row rest ih =>
    intro bye seen ek r0 hbye hseenk hfind htarget
    by_cases hkey : row.evidenceKey = ek
    · have hr0 : row = r0 := by
        rw [List.find?_cons_of_pos _ (by simp [hkey])] at hfind
        exact Option.some.inj hfind
      subst hr0
      have hpair : (row.evidenceKey, row.targetKey) ∉ seen := fun hc =>
        hseenk _ _ hc hkey
      have hany : (bye.any fun e => e.1 == row.evidenceKey) = false := by
        rw [List.any_eq_false]
        intro e he
        simp [hbye e he, hkey]
      have hstep : addMissingSourceRows src (row :: rest) bye seen =
          addMissingSourceRows src rest
            (bye ++ [(row.evidenceKey, [minimalSourceRow src row])])
            ((row.evidenceKey, row.targetKey) :: seen) := by
        simp only [addMissingSourceRows, hpair, if_neg, ite_false, hany,
          Bool.false_eq_true]
      rw [hstep]
      have hrest : ∀ r ∈ rest, r.evidenceKey = ek →
          (ek, r.targetKey) ∈ ((row.evidenceKey, row.targetKey) :: seen) := by
        intro r hr he
        rw [htarget r (List.mem_cons_of_mem _ hr) he, ← hkey]
        exact List.mem_cons_self _ _
      rw [addMissingSourceRows_lookup_preserved src rest _ _ ek hrest, hkey]
      exact lookupGroup_append_of_no_key hbye
    · have hfind2 : (rest.find? fun r => r.evidenceKey == ek) = some r0 := by
        rwa [List.find?_cons_of_neg _ (by simp [hkey])] at hfind
      have htarget2 : ∀ r ∈ rest, r.evidenceKey = ek →
          r.targetKey = r0.targetKey := fun r hr he =>
        htarget r (List.mem_cons_of_mem _ hr) he
      by_cases hseen : (row.evidenceKey, row.targetKey) ∈ seen
      · rw [show addMissingSourceRows src (row :: rest) bye seen =
            addMissingSourceRows src rest bye seen by
          simp [addMissingSourceRows, hseen]]
        exact ih bye seen ek r0 hbye hseenk hfind2 htarget2
      · have hstep : addMissingSourceRows src (row :: rest) bye seen =
            addMissingSourceRows src rest
              (if bye.any fun e => e.1 == row.evidenceKey then
                bye.map fun e =>
                  if e.1 == row.evidenceKey then
                    (e.1, e.2 ++ [minimalSourceRow src row])
                  else e
               else bye ++ [(row.evidenceKey, [minimalSourceRow src row])])
              ((row.evidenceKey, row.targetKey) :: seen) := by
          simp only [addMissingSourceRows, hseen, if_neg, ite_false]
        rw [hstep]
        have hseenk2 : ∀ e m,
            (e, m) ∈ ((row.evidenceKey, row.targetKey) :: seen) →
            e ≠ ek := by
          intro e m hm
          rcases List.mem_cons.1 hm with heq | h2
          · rw [Prod.mk.injEq] at heq
            rw [heq.1]
            exact hkey
          · exact hseenk e m h2
        by_cases hany : (bye.any fun e => e.1 == row.evidenceKey) = true
        · rw [if_pos hany]
          refine ih _ _ ek r0 ?_ hseenk2 hfind2 htarget2
          intro en hen
          obtain ⟨e, he, rfl⟩ := List.mem_map.1 hen
          have hk : ((if e.1 == row.evidenceKey then
              (e.1, e.2 ++ [minimalSourceRow src row]) else e) :
              Nat × List PropRow).1 = e.1 := by
            by_cases hc : e.1 = row.evidenceKey <;> simp [hc]
          rw [hk]
          exact hbye e he
        · rw [if_neg hany]
          refine ih _ _ ek r0 ?_ hseenk2 hfind2 htarget2
          intro en hen
          rcases List.mem_append.1 hen with h2 | h2
          · exact hbye en h2
          · rcases List.mem_singleton.1 h2 with rfl
            exact hkey

/-- Claim C3 (amended): sequence numbering of the appended provenance
property.  For an evidence record that already has property rows (all for one
target key, the raw evidence rows for it agreeing), the single appended
provenance property receives sequence number `(maximum existing) + 2` — the
code increments the maximum once before the inner loop and once more inside
it (and starts from 1 instead of 0 when the maximum is 0, which yields the
same value) — not `(maximum) + 1` as the specification states; for an
evidence record with no property rows at all, a complete minimal property row
is synthesized with sequence number 1 and stanza 1, as the specification
states. -/
theorem getEvidenceProperties_seqnum_amended (src : Nat)
    (properties : List PropRow) (rawEvidence : List EvidRow) (ek mk : Nat) :
    (∀ (hne : groupFor properties ek ≠ []),
      (∀ r ∈ groupFor properties ek, r.targetKey = mk) →
      (∀ r ∈ rawEvidence, r.evidenceKey = ek → r.targetKey = mk) →
      lookupGroup (getEvidenceProperties src properties rawEvidence) ek =
        groupFor properties ek ++
          [{ (groupFor properties ek).head hne with
              propertyTermKey := src,
              sequenceNum := maxSeq (groupFor properties ek) + 2,
              value :=
                (((groupFor properties ek).head hne).annotKey : Int) }]) ∧
    ((∀ p ∈ properties, p.evidenceKey ≠ ek) →
      ∀ r0, (rawEvidence.find? fun r => r.evidenceKey == ek) = some r0 →
      (∀ r ∈ rawEvidence, r.evidenceKey = ek → r.targetKey = r0.targetKey) →
      lookupGroup (getEvidenceProperties src properties rawEvidence) ek =
        [minimalSourceRow src r0] ∧
      (minimalSourceRow src r0).sequenceNum = 1 ∧
      (minimalSourceRow src r0).stanza = 1) := by
  have hmain : getEvidenceProperties src properties rawEvidence =
      (addMissingSourceRows src rawEvidence
        (processEvidKeys src properties
          (evidKeysSorted properties) [] []).1
        (processEvidKeys src properties
          (evidKeysSorted properties) [] []).2).1 := rfl
  constructor
  · intro hne hall hraw
    obtain ⟨row0, hrow0⟩ : ∃ row, row ∈ groupFor properties ek := by
      cases hg : groupFor properties ek with
      | nil => exact absurd hg hne
      | cons a b => exact ⟨a, List.mem_cons_self a b⟩
    have hin := List.mem_filter.1 hrow0
    have hkey0 : row0.evidenceKey = ek := by simpa using hin.2
    have hmem : ek ∈ evidKeysSorted properties := by
      have hd : ek ∈ (properties.map PropRow.evidenceKey).dedup :=
        List.mem_dedup.2 (List.mem_map.2 ⟨row0, hin.1, hkey0⟩)
      exact ((List.mergeSort_perm _ _).mem_iff).2 hd
    have hnodup : (evidKeysSorted properties).Nodup := by
      have hperm := List.mergeSort_perm
        ((properties.map PropRow.evidenceKey).dedup) (fun a b => a ≤ b)
      exact hperm.nodup_iff.2 (List.nodup_dedup _)
    have h1 := processEvidKeys_lookup_single src properties
      (evidKeysSorted properties) [] [] hnodup
      (fun e m h => absurd h (List.not_mem_nil _))
      (fun en h => absurd h (List.not_mem_nil _))
      ek mk hmem hne hall
    have hrawseen : ∀ r ∈ rawEvidence, r.evidenceKey = ek →
        (ek, r.targetKey) ∈ (processEvidKeys src properties
          (evidKeysSorted properties) [] []).2 := by
      intro r hr he
      rw [processEvidKeys_seen src properties (evidKeysSorted properties)
        [] [] ek r.targetKey]
      refine Or.inr ⟨hmem, ?_⟩
      rw [hraw r hr he]
      exact List.mem_map.2 ⟨row0, hrow0, hall row0 hrow0⟩
    have hseq : (if maxSeq (groupFor properties ek) = 0 then 1
        else maxSeq (groupFor properties ek) + 1) + 1 =
        maxSeq (groupFor properties ek) + 2 := by
      split <;> omega
    rw [hmain,
      addMissingSourceRows_lookup_preserved src rawEvidence _ _ ek hrawseen,
      h1, hseq]
  · intro hprops r0 hfind htarget
    refine ⟨?_, rfl, rfl⟩
    have hnotin : ek ∉ evidKeysSorted properties := by
      intro hk
      have hd := ((List.mergeSort_perm _ _).mem_iff).1 hk
      obtain ⟨p, hp, hpe⟩ := List.mem_map.1 (List.mem_dedup.1 hd)
      exact hprops p hp hpe
    obtain ⟨extra, hEq, hkeys⟩ := processEvidKeys_shape src properties
      (evidKeysSorted properties) [] []
    have hbye : ∀ en ∈ (processEvidKeys src properties
        (evidKeysSorted properties) [] []).1,
        (en : Nat × List PropRow).1 ≠ ek := by
      intro en hen hc
      rw [hEq] at hen
      exact hnotin (hc ▸ hkeys en (by simpa using hen))
    have hseenk : ∀ e m, (e, m) ∈ (processEvidKeys src properties
        (evidKeysSorted properties) [] []).2 → e ≠ ek := by
      intro e m hm hc
      rw [processEvidKeys_seen] at hm
      rcases hm with h | ⟨hk2, _⟩
      · exact absurd h (List.not_mem_nil _)
      · exact hnotin (hc ▸ hk2)
    rw [hmain]
    exact addMissingSourceRows_lookup_create src rawEvidence _ _ ek r0
      hbye hseenk hfind htarget

/-- Counterexample to claim C3 as stated: for a concrete evidence record whose
single existing property row has sequence number 3 (the maximum), the appended
provenance property receives sequence number 5, not 3 + 1 = 4. -/
theorem getEvidenceProperties_seqnum_counterexample :
    maxSeq (groupFor [⟨5, 77, 1, 9, 1, 3, 0, 0, 0, 0, 0⟩] 1) = 3 ∧
    ((lookupGroup (getEvidenceProperties 13576001
        [⟨5, 77, 1, 9, 1, 3, 0, 0, 0, 0, 0⟩]
        [⟨5, 77, 1, 0, 0, 0, 0⟩]) 1).map PropRow.sequenceNum = [3, 5] ∧
      ¬ ((5 : Nat) = 3 + 1)) := by
  refine ⟨by decide, ?_, by decide⟩
  have h1 : evidKeysSorted [⟨5, 77, 1, 9, 1, 3, 0, 0, 0, 0, 0⟩] = [1] := by
    simp [evidKeysSorted]
  have h2 : getEvidenceProperties 13576001
      [⟨5, 77, 1, 9, 1, 3, 0, 0, 0, 0, 0⟩] [⟨5, 77, 1, 0, 0, 0, 0⟩] =
      (addMissingSourceRows 13576001 [⟨5, 77, 1, 0, 0, 0, 0⟩]
        (processEvidKeys 13576001 [⟨5, 77, 1, 9, 1, 3, 0, 0, 0, 0, 0⟩]
          [1] [] []).1
        (processEvidKeys 13576001 [⟨5, 77, 1, 9, 1, 3, 0, 0, 0, 0, 0⟩]
          [1] [] []).2).1 := by
    simp only [getEvidenceProperties]
    rw [h1]
  rw [h2]
  decide

/-- Witness for the amended claim C3 at concrete inputs: with an existing
property row of sequence number 3 the appended provenance row gets sequence
number 3 + 2 = 5, and an evidence record with no property rows gets exactly
the synthesized minimal row. -/
theorem getEvidenceProperties_seqnum_amended_witness :
    ((lookupGroup (getEvidenceProperties 13576001
        [⟨5, 77, 1, 9, 1, 3, 0, 0, 0, 0, 0⟩]
        [⟨5, 77, 1, 0, 0, 0, 0⟩]) 1).map PropRow.sequenceNum = [3, 5]) ∧
    (lookupGroup (getEvidenceProperties 13576001 ([] : List PropRow)
        [⟨6, 99, 2, 0, 0, 0, 0⟩]) 2 =
      [minimalSourceRow 13576001 ⟨6, 99, 2, 0, 0, 0, 0⟩]) := by
  constructor
  · rw [(getEvidenceProperties_seqnum_amended 13576001
      [⟨5, 77, 1, 9, 1, 3, 0, 0, 0, 0, 0⟩] [⟨5, 77, 1, 0, 0, 0, 0⟩] 1 5).1
      (by decide) (by decide) (by decide)]
    decide
  · exact ((getEvidenceProperties_seqnum_amended 13576001 []
      [⟨6, 99, 2, 0, 0, 0, 0⟩] 2 0).2
      (by decide) ⟨6, 99, 2, 0, 0, 0, 0⟩ (by decide) (by decide)).1

/-! ### rollup_check.py: the independent verification script (claim C8)

`rollup_check.py` re-checks rolled-up annotations in a database.  Its
`compare` function returns the number of mismatches as an integer; `main`
accumulates these integers across chunks (`mismatches = mismatches + found`)
and, on failure, evaluates `len(mismatches)` on that integer while building
`bailout`'s message.  The embedding models Python `len()` on an
integer-or-list value, annotation dictionaries as association lists, Python
exceptions as `Except.error`, and the deep flatten/superset comparison of
`Annotation.matches` by equality of one opaque content field (only the
integer count that `compare` returns matters here). -/

/-- A Python value as far as `len()` is concerned: an integer or a list. -/
inductive PyVal where
  | int (n : Int)
  | list (xs : List Int)
  deriving DecidableEq, Repr

/-- Python `len()`: the length of a list; calling it on an integer raises
`TypeError`. -/
def pyLen : PyVal → Except String Nat
  | PyVal.list xs => Except.ok xs.length
  | PyVal.int _ => Except.error "TypeError: object of type int has no len()"

/-- One annotation as `compare` consumes it: its key, the value of its
`_SourceAnnot_key` property if any (`getSourceKey`, `None` when absent), and
the flattened annotation/evidence/property data that `matches` compares
(abstracted to one field compared for equality). -/
structure CheckAnn where
  annotKey : Nat
  sourceKey : Option Nat
  content : Nat
  deriving DecidableEq, Repr

/-- `Annotation.matches` (abstracted): whether the derived annotation's data
matches the source annotation's. -/
def matchesAnn (d s : CheckAnn) : Bool :=
  d.content == s.content

/-- The `for derivedKey in keys` loop of `compare`: a derived annotation with
no source key (or source key 0, since Python `not sourceKey` is also true for
0) is reported and skipped without counting; a source key absent from
`sourceAnnotations` makes the unguarded `sourceAnnotations[sourceKey]`
subscript on the next line raise `KeyError`; otherwise a failed `matches`
increments the mismatch counter. -/
def compareLoop (source : List (Nat × CheckAnn)) :
    List (Nat × CheckAnn) → Nat → Except String Nat
  | [], mismatches => Except.ok mismatches
  | (_, d) :: rest, mismatches =>
    match d.sourceKey with
    | none => compareLoop source rest mismatches
    | some sk =>
      if sk = 0 then compareLoop source rest mismatches
      else
        match source.find? fun e => e.1 == sk with
        | none => Except.error "KeyError"
        | some e =>
          if matchesAnn d e.2 then compareLoop source rest mismatches
          else compareLoop source rest (mismatches + 1)

/-- `compare`: iterate the derived annotations in sorted key order and return
the number of mismatches as an integer. -/
def compare (derived source : List (Nat × CheckAnn)) : Except String Nat :=
  compareLoop source (derived.mergeSort fun a b => a.1 ≤ b.1) 0

/-- The chunk loop of `main`: `found = compare(...)` then
`mismatches = mismatches + found`, accumulating the integer results of all
chunks (across both annotation-type pairs) into one integer variable. -/
def mainChunkLoop :
    List (List (Nat × CheckAnn) × List (Nat × CheckAnn)) → Nat →
      Except String Nat
  | [], mismatches => Except.ok mismatches
  | (derived, source) :: rest, mismatches =>
    match compare derived source with
    | Except.error e => Except.error e
    | Except.ok found => mainChunkLoop rest (mismatches + found)

/-- The tail of `main`: `if mismatches: bailout('Failed with %d mismatches' %
len(mismatches))`, else print `All records matched`.  The argument
`len(mismatches)` is evaluated before `bailout` runs, on the integer the
chunk loop accumulated. -/
def rollupCheckMain
    (chunks : List (List (Nat × CheckAnn) × List (Nat × CheckAnn))) :
    Except String String :=
  match mainChunkLoop chunks 0 with
  | Except.error e => Except.error e
  | Except.ok mismatches =>
    if mismatches ≠ 0 then
      match pyLen (PyVal.int (mismatches : Int)) with
      | Except.error e => Except.error e
      | Except.ok n =>
        Except.error ("Failed with " ++ toString n ++ " mismatches")
    else Except.ok "All records matched"

/-- Claim C8: `main` accumulates the mismatch totals of all chunks into a
single integer variable, and its final failure-reporting branch applies
`len()` to that integer; so every run in which at least one comparison
mismatch was found ends in the `TypeError` that `len()` raises on an integer,
not in `bailout`'s intended message. -/
theorem rollupCheckMain_len_on_int
    (chunks : List (List (Nat × CheckAnn) × List (Nat × CheckAnn)))
    (total : Nat) (h : mainChunkLoop chunks 0 = Except.ok total)
    (hpos : 0 < total) :
    rollupCheckMain chunks =
      Except.error "TypeError: object of type int has no len()" := by
  have hne : total ≠ 0 := Nat.pos_iff_ne_zero.1 hpos
  unfold rollupCheckMain
  rw [h]
  simp [hne, pyLen]

/-- Witness for claim C8 at a concrete input: one chunk whose single derived
annotation points at source annotation 4 with differing content yields total
1 and the `TypeError` outcome. -/
theorem rollupCheckMain_len_on_int_witness :
    mainChunkLoop [([(1, ⟨1, some 4, 10⟩)], [(4, ⟨4, none, 99⟩)])] 0 =
      Except.ok 1 ∧
    (0 : Nat) < 1 ∧
    rollupCheckMain [([(1, ⟨1, some 4, 10⟩)], [(4, ⟨4, none, 99⟩)])] =
      Except.error "TypeError: object of type int has no len()" := by
  have h : mainChunkLoop [([(1, ⟨1, some 4, 10⟩)], [(4, ⟨4, none, 99⟩)])] 0 =
      Except.ok 1 := by
    have hms : (([(1, ⟨1, some 4, 10⟩)] : List (Nat × CheckAnn)).mergeSort
        fun a b => a.1 ≤ b.1) = [(1, ⟨1, some 4, 10⟩)] := by
      simp
    simp [mainChunkLoop, compare, hms, compareLoop, matchesAnn]
  exact ⟨h, by decide,
    rollupCheckMain_len_on_int [([(1, ⟨1, some 4, 10⟩)], [(4, ⟨4, none, 99⟩)])]
      1 h (by decide)⟩

/-! ### The Marker accumulator class (claims C9 and C10)

`rollupmarkerlib.Marker` collects annotation, evidence, property and note
rows for one marker and, on `getAnnotations()`, finalizes them into rows for
the annotation loader.  Identifier-to-string key maps (`TERM_MAP` etc., whose
`.get` returns `None` when absent) are embedded as functions to
`Option String`; the dictionaries keyed by annotation or evidence key as
association lists; `raise Error(s)` in the setters as `Except.error`.
`rollupallelelib.Allele` is the same class with the allele key in place of
the marker key and with the module's `DEBUG` flag set (`True` there, `False`
in the marker module), which shortens each output row to two columns; the
row-building loop is embedded once, parameterized by that flag. -/

/-- An annotation row as `Marker.finalize` reads it. -/
structure AnnotRow where
  annotKey : Nat
  termKey : Nat
  markerKey : Nat
  qualifierKey : Nat
  deriving DecidableEq, Repr

/-- An evidence row as `Marker.finalize` reads it. -/
structure MEvidenceRow where
  evidenceKey : Nat
  inferredFrom : Option String
  evidenceTermKey : Nat
  refsKey : Nat
  modifiedByKey : Nat
  deriving DecidableEq, Repr

/-- An evidence-property row as `Marker._buildPropertiesValue` reads it. -/
structure EPropRow where
  propertyTermKey : Nat
  stanza : Nat
  value : String
  deriving DecidableEq, Repr

/-- The key-to-identifier maps the module loads up front (`TERM_MAP`,
`MARKER_MAP`, `QUALIFIER_MAP`, `EVIDENCE_MAP`, `JNUM_MAP`, `USER_MAP`,
`PROPERTY_MAP`); `.get` yields `none` for an unknown key. -/
structure KeyMaps where
  termID : Nat → Option String
  markerID : Nat → Option String
  qualifier : Nat → Option String
  evidenceCode : Nat → Option String
  jnumID : Nat → Option String
  userLogin : Nat → Option String
  propertyName : Nat → Option String

/-- Python `'%s' % v`: `None` renders as the string `None`. -/
def pyStr : Option String → String
  | none => "None"
  | some s => s

/-- The state of one `Marker` object (field order as in `__init__`). -/
structure MarkerObj where
  finalized : Bool
  markerKey : Nat
  annotations : List AnnotRow
  evidence : List (Nat × List MEvidenceRow)
  evidenceProperties : List (Nat × List EPropRow)
  notes : List (Nat × List String)
  finalAnnotations : List (List (Option String))
  deriving DecidableEq, Repr

/-- The loop of `_concatenateNotes`: `if notes: notes = notes.strip() + ' '`
then `notes = notes + noteRow['note']`. -/
def concatNotesLoop : List String → String → String
  | [], acc => acc
  | note :: rest, acc =>
    concatNotesLoop rest ((if acc ≠ "" then acc.trim ++ " " else acc) ++ note)

/-- `Marker._concatenateNotes`: concatenate the notes stored for an evidence
key (none when the key is absent), then replace newlines and tabs by spaces
and strip. -/
def concatenateNotes (notes : List (Nat × List String)) (ek : Nat) : String :=
  (((match notes.find? fun (e : Nat × List String) => e.1 == ek with
    | none => ""
    | some e => concatNotesLoop e.2 "").replace "\n" " ").replace
      "\t" " ").trim

/-- The stanza-grouping loop of `_buildPropertiesValue`: a change in stanza
number opens a new stanza list, and each row's
`'%s&=&%s' % (PROPERTY_MAP.get(key), value)` clause is appended to the most
recent stanza. -/
def buildStanzasLoop (maps : KeyMaps) :
    List EPropRow → Option Nat → List (List String) → List (List String)
  | [], _, stanzas => stanzas
  | row :: rest, lastStanza, stanzas =>
    let stanzas2 :=
      if lastStanza ≠ some row.stanza then stanzas ++ [[]] else stanzas
    let clause := pyStr (maps.propertyName row.propertyTermKey) ++ "&=&" ++
      row.value
    buildStanzasLoop maps rest (some row.stanza)
      (stanzas2.dropLast ++ [(stanzas2.getLast?.getD []) ++ [clause]])

/-- `Marker._buildPropertiesValue`: group the evidence key's property rows
into stanzas (none when the key is absent), join clauses within a stanza with
`&==&` and stanzas with `&===&`. -/
def buildPropertiesValue (maps : KeyMaps)
    (props : List (Nat × List EPropRow)) (ek : Nat) : String :=
  String.intercalate "&===&"
    ((match props.find? fun (e : Nat × List EPropRow) => e.1 == ek with
      | none => []
      | some e => buildStanzasLoop maps e.2 none []).map
      (String.intercalate "&==&"))

/-- The body of `finalize`'s `for annotRow in self.annotations` loop: skip
`no phenotypic analysis` annotations; skip annotations whose key has no entry
in the evidence dictionary (`if annotKey not in self.evidence: continue`);
otherwise emit one output row per evidence row — eleven columns, or just term
and marker identifiers when the module's `DEBUG` flag is set. -/
def finalizeAnnotRow (debug : Bool) (maps : KeyMaps)
    (evidence : List (Nat × List MEvidenceRow))
    (props : List (Nat × List EPropRow))
    (notes : List (Nat × List String))
    (annotRow : AnnotRow) : List (List (Option String)) :=
  if annotRow.termKey == NO_PHENOTYPIC_ANALYSIS then []
  else
    let termID := maps.termID annotRow.termKey
    let markerID := maps.markerID annotRow.markerKey
    let qualifier := (maps.qualifier annotRow.qualifierKey).getD ""
    match evidence.find? fun en => en.1 == annotRow.annotKey with
    | none => []
    | some en =>
      en.2.map fun evidRow =>
        let inferredFrom := evidRow.inferredFrom.getD ""
        let evidenceCode := maps.evidenceCode evidRow.evidenceTermKey
        let jnumID := maps.jnumID evidRow.refsKey
        let user := maps.userLogin evidRow.modifiedByKey
        let notesStr := concatenateNotes notes evidRow.evidenceKey
        let propertiesStr := buildPropertiesValue maps props evidRow.evidenceKey
        if debug then [termID, markerID]
        else [termID, markerID, jnumID, evidenceCode, some inferredFrom,
          some qualifier, user, some "", some notesStr, some "",
          some propertiesStr]

/-- `Marker.finalize`: a no-op on an already finalized object; otherwise
rebuild `finalAnnotations` from the stored data (the marker module's `DEBUG`
is `False`) and mark the object finalized. -/
def finalize (maps : KeyMaps) (m : MarkerObj) : MarkerObj :=
  if m.finalized then m
  else
    { m with
      finalAnnotations := m.annotations.flatMap
        (finalizeAnnotRow false maps m.evidence m.evidenceProperties m.notes),
      finalized := true }

/-- `Marker.getAnnotations`: finalize, then return the finalized rows (the
embedding also returns the updated object state). -/
def getAnnotations (maps : KeyMaps) (m : MarkerObj) :
    List (List (Option String)) × MarkerObj :=
  let m2 := finalize maps m
  (m2.finalAnnotations, m2)

/-- `Marker.checkWriteable`: raise on a finalized object. -/
def checkWriteable (m : MarkerObj) (setWhat : String) : Except String Unit :=
  if m.finalized then
    Except.error ("Cannot set " ++ setWhat ++ " on finalized marker: " ++
      toString m.markerKey)
  else Except.ok ()

/-- `Marker.setAnnotations`. -/
def setAnnotations (m : MarkerObj) (a : List AnnotRow) :
    Except String MarkerObj :=
  match checkWriteable m "annotations" with
  | Except.error e => Except.error e
  | Except.ok _ => Except.ok { m with annotations := a }

/-- `Marker.setEvidence`. -/
def setEvidence (m : MarkerObj) (e : List (Nat × List MEvidenceRow)) :
    Except String MarkerObj :=
  match checkWriteable m "evidence" with
  | Except.error e2 => Except.error e2
  | Except.ok _ => Except.ok { m with evidence := e }

/-- `Marker.setProperties` (stores into `evidenceProperties`). -/
def setProperties (m : MarkerObj) (p : List (Nat × List EPropRow)) :
    Except String MarkerObj :=
  match checkWriteable m "properties" with
  | Except.error e => Except.error e
  | Except.ok _ => Except.ok { m with evidenceProperties := p }

/-- `Marker.setNotes`. -/
def setNotes (m : MarkerObj) (n : List (Nat × List String)) :
    Except String MarkerObj :=
  match checkWriteable m "notes" with
  | Except.error e => Except.error e
  | Except.ok _ => Except.ok { m with notes := n }

/-- Claim C9: once a `Marker` object is finalized — which `getAnnotations`
does — every setter raises `Error` with the
`Cannot set ... on finalized marker` message, leaving the stored data
unchanged (the embedding returns no updated object on error); before
finalization every setter succeeds and stores its argument; and a repeated
`finalize` is a no-op that leaves `finalAnnotations` unchanged. -/
theorem marker_finalized_setters (maps : KeyMaps) (m : MarkerObj)
    (a : List AnnotRow) (e : List (Nat × List MEvidenceRow))
    (p : List (Nat × List EPropRow)) (n : List (Nat × List String)) :
    ((getAnnotations maps m).2.finalized = true) ∧
    (m.finalized = true →
      setAnnotations m a = Except.error
        ("Cannot set annotations on finalized marker: " ++
          toString m.markerKey) ∧
      setEvidence m e = Except.error
        ("Cannot set evidence on finalized marker: " ++
          toString m.markerKey) ∧
      setProperties m p = Except.error
        ("Cannot set properties on finalized marker: " ++
          toString m.markerKey) ∧
      setNotes m n = Except.error
        ("Cannot set notes on finalized marker: " ++
          toString m.markerKey)) ∧
    (m.finalized = false →
      setAnnotations m a = Except.ok { m with annotations := a } ∧
      setEvidence m e = Except.ok { m with evidence := e } ∧
      setProperties m p = Except.ok { m with evidenceProperties := p } ∧
      setNotes m n = Except.ok { m with notes := n }) ∧
    finalize maps (finalize maps m) = finalize maps m := by
  refine ⟨?_, ?_, ?_, ?_⟩
  · by_cases h : m.finalized
    · simp [getAnnotations, finalize, h]
    · simp [getAnnotations, finalize, h]
  · intro h
    refine ⟨?_, ?_, ?_, ?_⟩ <;>
      simp [setAnnotations, setEvidence, setProperties, setNotes,
        checkWriteable, h]
  · intro h
    refine ⟨?_, ?_, ?_, ?_⟩ <;>
      simp [setAnnotations, setEvidence, setProperties, setNotes,
        checkWriteable, h]
  · by_cases h : m.finalized
    · simp [finalize, h]
    · simp [finalize, h]

/-- Witness for claim C9 at concrete objects: on a finalized marker 7 the
annotations setter raises with the exact message; on a fresh marker 7 the
notes setter succeeds; finalizing a fresh marker twice equals finalizing it
once (with every key map returning `none`). -/
theorem marker_finalized_setters_witness :
    (setAnnotations ⟨true, 7, [], [], [], [], []⟩ [] = Except.error
      ("Cannot set annotations on finalized marker: " ++
        toString (7 : Nat))) ∧
    (setNotes ⟨false, 7, [], [], [], [], []⟩ [] = Except.ok
      { (⟨false, 7, [], [], [], [], []⟩ : MarkerObj) with notes := [] }) ∧
    (finalize
        ⟨fun _ => none, fun _ => none, fun _ => none, fun _ => none,
          fun _ => none, fun _ => none, fun _ => none⟩
        (finalize
          ⟨fun _ => none, fun _ => none, fun _ => none, fun _ => none,
            fun _ => none, fun _ => none, fun _ => none⟩
          ⟨false, 7, [], [], [], [], []⟩) =
      finalize
        ⟨fun _ => none, fun _ => none, fun _ => none, fun _ => none,
          fun _ => none, fun _ => none, fun _ => none⟩
        ⟨false, 7, [], [], [], [], []⟩) :=
  ⟨((marker_finalized_setters
      ⟨fun _ => none, fun _ => none, fun _ => none, fun _ => none,
        fun _ => none, fun _ => none, fun _ => none⟩
      ⟨true, 7, [], [], [], [], []⟩ [] [] [] []).2.1 rfl).1,
    ((marker_finalized_setters
      ⟨fun _ => none, fun _ => none, fun _ => none, fun _ => none,
        fun _ => none, fun _ => none, fun _ => none⟩
      ⟨false, 7, [], [], [], [], []⟩ [] [] [] []).2.2.1 rfl).2.2.2,
    (marker_finalized_setters
      ⟨fun _ => none, fun _ => none, fun _ => none, fun _ => none,
        fun _ => none, fun _ => none, fun _ => none⟩
      ⟨false, 7, [], [], [], [], []⟩ [] [] [] []).2.2.2⟩

/-- Dropping list elements that a predicate rejects does not change a
flat-map whose function sends every rejected element to the empty list. -/
theorem flatMap_filter_of_nil {α β : Type} (p : α → Bool) (f : α → List β) :
    ∀ l : List α, (∀ x ∈ l, p x = false → f x = []) →
    (l.filter p).flatMap f = l.flatMap f := by
  intro l
  induction l with
  | nil => intro _; rfl
  | cons a t ih =>
    intro h
    cases hp : p a with
    | true =>
      rw [List.filter_cons_of_pos hp, List.flatMap_cons, List.flatMap_cons,
        ih fun x hx hpx => h x (List.mem_cons_of_mem _ hx) hpx]
    | false =>
      rw [List.filter_cons_of_neg (by simp [hp]), List.flatMap_cons,
        h a (List.mem_cons_self _ _) hp,
        ih fun x hx hpx => h x (List.mem_cons_of_mem _ hx) hpx,
        List.nil_append]

/-- Claim C10: a source annotation row whose annotation key has no entry in
the evidence dictionary contributes zero rows to the finalized output —
dropping all such rows changes neither the row-building loop's output (for
either value of the `DEBUG` flag, covering the marker and allele modules)
nor the rows `getAnnotations` returns. -/
theorem getAnnotations_skips_no_evidence (debug : Bool) (maps : KeyMaps)
    (m : MarkerObj) :
    ((m.annotations.filter fun a =>
        m.evidence.any fun en => en.1 == a.annotKey).flatMap
      (finalizeAnnotRow debug maps m.evidence m.evidenceProperties m.notes) =
      m.annotations.flatMap
        (finalizeAnnotRow debug maps m.evidence m.evidenceProperties
          m.notes)) ∧
    (getAnnotations maps
        { m with annotations := m.annotations.filter fun a =>
            m.evidence.any fun en => en.1 == a.annotKey }).1 =
      (getAnnotations maps m).1 := by
  have hnil : ∀ db, ∀ x ∈ m.annotations,
      (m.evidence.any fun en => en.1 == x.annotKey) = false →
      finalizeAnnotRow db maps m.evidence m.evidenceProperties m.notes x =
        [] := by
    intro db x _ hx
    have hfind : (m.evidence.find? fun en => en.1 == x.annotKey) = none := by
      rw [List.find?_eq_none]
      intro en hen
      simpa using List.any_eq_false.1 hx en hen
    by_cases ht : (x.termKey == NO_PHENOTYPIC_ANALYSIS) = true <;>
      simp [finalizeAnnotRow, ht, hfind]
  have hkey : ∀ db,
      ((m.annotations.filter fun a =>
          m.evidence.any fun en => en.1 == a.annotKey).flatMap
        (finalizeAnnotRow db maps m.evidence m.evidenceProperties
          m.notes)) =
      m.annotations.flatMap
        (finalizeAnnotRow db maps m.evidence m.evidenceProperties m.notes) :=
    fun db => flatMap_filter_of_nil _ _ m.annotations (hnil db)
  refine ⟨hkey debug, ?_⟩
  by_cases h : m.finalized
  · simp [getAnnotations, finalize, h]
  · simp only [getAnnotations, finalize, h]
    simpa using hkey false

end Rollupload
